import Mathlib

/-!
# Task scheduler (`TaskScheduler`, `ScheduledTask`) of `Project11/源.cpp`

A shallow embedding of the scheduler core of the program:

* `ITask`, `ScheduledTask` (with `operator>`), the `std::priority_queue` of
  scheduled tasks ordered by `std::greater`, kept as a binary heap in a vector;
* `TaskScheduler` with `AddTask`, `AddObserver`, `NotifyObservers` and the body
  of `WorkerLoop`.

Time points are counts of clock ticks (`Int`).  Calls whose bodies are outside
the scheduler (a job's `Execute`, the observers, the clock) are described by
what the scheduler can observe of them: whether they return or throw.
-/

namespace TaskSched

/-! ## Jobs and scheduled tasks -/

/-- What a call can throw: an object derived from `std::exception` (with its
`what()` text), or some other object. -/
inductive Thrown where
  | stdException (what : String)
  | other
  deriving DecidableEq

/-- An `ITask` as the scheduler sees it: `GetName()` gives its display name.
The effect of `Execute()` is supplied by the `World` of a loop iteration. -/
structure ITask where
  GetName : String
  deriving DecidableEq

/-- `system_clock::time_point`: a count of clock ticks.  The count is taken
in the integers: the clock values a run meets are far from the bounds of the
64-bit representation, so no sum of a time point and a duration wraps. -/
abbrev TimePoint := Int

/-- Ticks of `std::chrono::system_clock` per second (a period of 100 ns). -/
def ticksPerSecond : Int := 10000000

/-- `std::chrono::seconds(n)` converted to the clock's duration. -/
def seconds (n : Int) : Int := n * ticksPerSecond

/-- `class ScheduledTask`: a job, its due time, and the periodic repeat. -/
structure ScheduledTask where
  task : ITask
  runTime : TimePoint
  isPeriodic : Bool
  intervalSeconds : Int
  deriving DecidableEq

/-- `ScheduledTask::operator>`: compares the due times only. -/
def ScheduledTask.operatorGt (a other : ScheduledTask) : Bool :=
  decide (a.runTime > other.runTime)

/-! ## The priority queue

`std::priority_queue<ScheduledTask, std::vector<ScheduledTask>,
std::greater<ScheduledTask>>` keeps its vector `c` as a binary heap with
`push_heap` / `pop_heap`, the comparison being `operator>`. -/

/-- The underlying vector of the priority queue. -/
abbrev TaskQueue := List ScheduledTask

/-- Exchange of the elements at two positions of the vector. -/
def swapAt (v : TaskQueue) (i j : Nat) : TaskQueue :=
  match v[i]?, v[j]? with
  | some a, some b => (v.set i b).set j a
  | _, _ => v

/-- The comparison `std::greater` applied to the elements at two positions. -/
def compAt (v : TaskQueue) (i j : Nat) : Bool :=
  match v[i]?, v[j]? with
  | some a, some b => a.operatorGt b
  | _, _ => false

/-- Percolation of the element at `hole` towards the root, as `push_heap`
does: it moves up while `comp(parent, value)` holds.  The first argument
bounds the number of levels. -/
def pushHeapByIndex : Nat → TaskQueue → Nat → TaskQueue
  | 0, v, _ => v
  | fuel + 1, v, hole =>
    if 0 < hole ∧ compAt v ((hole - 1) / 2) hole = true then
      pushHeapByIndex fuel (swapAt v ((hole - 1) / 2) hole) ((hole - 1) / 2)
    else v

/-- Percolation of the hole to the bottom, as `pop_heap` does: at every level
the hole moves to the right child, or to the left one when
`comp(right, left)` holds; a lone left child at the bottom is taken too.
Returns the vector and the final position of the hole. -/
def popHeapHoleByIndex : Nat → TaskQueue → Nat → TaskQueue × Nat
  | 0, v, hole => (v, hole)
  | fuel + 1, v, hole =>
    if 2 * hole + 2 < v.length then
      let idx := if compAt v (2 * hole + 2) (2 * hole + 1) = true
        then 2 * hole + 1 else 2 * hole + 2
      popHeapHoleByIndex fuel (swapAt v hole idx) idx
    else if 2 * hole + 1 < v.length then
      (swapAt v hole (2 * hole + 1), 2 * hole + 1)
    else (v, hole)

/-- `priority_queue::empty`. -/
def TaskQueue.empty (v : TaskQueue) : Bool := v.isEmpty

/-- `priority_queue::top`: the front of the vector. -/
def TaskQueue.top (v : TaskQueue) : Option ScheduledTask := v.head?

/-- `priority_queue::push`: `push_back` followed by `push_heap`. -/
def TaskQueue.push (v : TaskQueue) (x : ScheduledTask) : TaskQueue :=
  pushHeapByIndex v.length (v ++ [x]) v.length

/-- `priority_queue::pop`: `pop_heap` followed by `pop_back`.  The last
element is taken out, the hole left by the front percolates to the bottom and
the element is pushed up from there. -/
def TaskQueue.pop (v : TaskQueue) : TaskQueue :=
  match v.getLast? with
  | none => v
  | some val =>
    let v1 := v.dropLast
    if v1.length = 0 then v1
    else
      let r := popHeapHoleByIndex v1.length (v1.set 0 val) 0
      pushHeapByIndex r.2 r.1 r.2

/-- Due time of the element at a position (`0` outside the vector). -/
def keyAt (v : TaskQueue) (i : Nat) : Int :=
  match v[i]? with
  | some t => t.runTime
  | none => 0

/-- Heap property of the vector under `std::greater`: no element is due
before its parent, the parent of position `i` being `(i - 1) / 2`. -/
def IsHeap (v : TaskQueue) : Prop :=
  ∀ i, i < v.length → keyAt v ((i - 1) / 2) ≤ keyAt v i

instance (v : TaskQueue) : Decidable (IsHeap v) := by
  unfold IsHeap; infer_instance

/-- The heap property everywhere but on the link above `hole`, whose children
are not due before its parent: the state in which `push_heap` works. -/
def HeapUpTo (v : TaskQueue) (hole : Nat) : Prop :=
  (∀ j q, j < v.length → q = (j - 1) / 2 → j ≠ hole → keyAt v q ≤ keyAt v j) ∧
  (∀ j q, j < v.length → (j - 1) / 2 = hole → 0 < hole → q = (hole - 1) / 2 →
    keyAt v q ≤ keyAt v j)

/-- The heap property on all links that do not touch `hole`, whose children
are not due before its parent: the state in which the hole percolates down. -/
def HoleAt (v : TaskQueue) (hole : Nat) : Prop :=
  (∀ j q, j < v.length → q = (j - 1) / 2 → j ≠ hole → q ≠ hole →
    keyAt v q ≤ keyAt v j) ∧
  (∀ j q, j < v.length → (j - 1) / 2 = hole → 0 < hole → q = (hole - 1) / 2 →
    keyAt v q ≤ keyAt v j)

/-! ## The scheduler -/

/-- An observer, `std::function<void(std::string)>`, as the scheduler sees
it: called with a message it returns (`none`) or throws. -/
abbrev Observer := String → Option Thrown

/-- What the scheduler does that is visible from outside, in order. -/
inductive Event where
  /-- the observer registered at `index` was called with `message` -/
  | observerCalled (index : Nat) (message : String)
  /-- `task->Execute()` was called -/
  | executeCalled (task : ITask)
  /-- `log.Write(line)` on `task_log.txt` -/
  | logWritten (line : String)
  /-- `cv.wait(lock)` -/
  | waitCalled
  /-- `cv.wait_for(lock, waitTime)` -/
  | waitForCalled (waitTime : Int)
  deriving DecidableEq

/-- `class TaskScheduler`: the queue, the stop flag and the observers. -/
structure TaskScheduler where
  taskQueue : TaskQueue
  stopFlag : Bool
  observers : List Observer

/-- The constructor `TaskScheduler()`: empty queue, `stopFlag(false)`. -/
def TaskScheduler.init : TaskScheduler :=
  { taskQueue := [], stopFlag := false, observers := [] }

/-- Message sent before a job runs. -/
def startedMessage (t : ITask) : String := "开始执行: " ++ t.GetName

/-- Message sent after a job has returned. -/
def completedMessage (t : ITask) : String := "完成执行: " ++ t.GetName

/-- Message sent from the `catch` block. -/
def failedMessage (t : ITask) : String := "执行失败: " ++ t.GetName

/-- Line written to the log from the `catch` block. -/
def exceptionLogLine (what : String) : String := "任务执行异常: " ++ what

/-- The `for` loop of `NotifyObservers` from position `i` on: each observer is
called in turn; an exception thrown by one ends the loop and leaves the
function. -/
def notifyFrom (message : String) : Nat → List Observer → List Event × Option Thrown
  | _, [] => ([], none)
  | i, observer :: rest =>
    match observer message with
    | some e => ([Event.observerCalled i message], some e)
    | none =>
      ((Event.observerCalled i message) :: (notifyFrom message (i + 1) rest).1,
        (notifyFrom message (i + 1) rest).2)

/-- `TaskScheduler::NotifyObservers`. -/
def TaskScheduler.NotifyObservers (s : TaskScheduler) (message : String) :
    List Event × Option Thrown :=
  notifyFrom message 0 s.observers

/-- `TaskScheduler::AddTask`: `taskQueue.push(task)` under the lock. -/
def TaskScheduler.AddTask (s : TaskScheduler) (task : ScheduledTask) : TaskScheduler :=
  { s with taskQueue := s.taskQueue.push task }

/-- `TaskScheduler::AddObserver`: `observers.push_back(observer)`. -/
def TaskScheduler.AddObserver (s : TaskScheduler) (observer : Observer) : TaskScheduler :=
  { s with observers := s.observers ++ [observer] }

/-- What one iteration of the worker loop meets outside the scheduler: the
clock read at the head of the iteration, what `Execute()` of a job does
(returns, `none`, or throws), and the clock read after the job when a periodic
task is rescheduled. -/
structure World where
  now : TimePoint
  Execute : ITask → Option Thrown
  nowAfter : TimePoint

/-- The task that `WorkerLoop` passes to `AddTask` for a periodic `nextTask`:
`nextTask` with `runTime` set to `system_clock::now()` plus
`std::chrono::seconds(nextTask.intervalSeconds)`. -/
def rescheduled (nextTask : ScheduledTask) (nowAfter : TimePoint) : ScheduledTask :=
  { nextTask with runTime := nowAfter + seconds nextTask.intervalSeconds }

/-- Outcome of the `try` block of `WorkerLoop`. -/
structure TryResult where
  sched : TaskScheduler
  events : List Event
  resubmitted : Option ScheduledTask
  thrown : Option Thrown

/-- The `try` block of `WorkerLoop` for the task just popped: notify "started",
execute, notify "completed", and for a periodic task set the new `runTime` and
call `AddTask`.  The first exception ends the block. -/
def tryBlock (s : TaskScheduler) (w : World) (nextTask : ScheduledTask) : TryResult :=
  let n1 := s.NotifyObservers (startedMessage nextTask.task)
  match n1.2 with
  | some e => { sched := s, events := n1.1, resubmitted := none, thrown := some e }
  | none =>
    let ev2 := n1.1 ++ [Event.executeCalled nextTask.task]
    match w.Execute nextTask.task with
    | some e => { sched := s, events := ev2, resubmitted := none, thrown := some e }
    | none =>
      let n2 := s.NotifyObservers (completedMessage nextTask.task)
      match n2.2 with
      | some e =>
        { sched := s, events := ev2 ++ n2.1, resubmitted := none, thrown := some e }
      | none =>
        if nextTask.isPeriodic then
          let next := rescheduled nextTask w.nowAfter
          { sched := s.AddTask next, events := ev2 ++ n2.1, resubmitted := some next,
            thrown := none }
        else
          { sched := s, events := ev2 ++ n2.1, resubmitted := none, thrown := none }

/-- The handler `catch (const std::exception& e)` of `WorkerLoop`: it takes a
`std::exception` only, writes the log line and notifies "failed".  Returns the
events and the exception that leaves the handler, if any. -/
def catchBlock (s : TaskScheduler) (nextTask : ScheduledTask) (e : Thrown) :
    List Event × Option Thrown :=
  match e with
  | Thrown.stdException what =>
    let n := s.NotifyObservers (failedMessage nextTask.task)
    ((Event.logWritten (exceptionLogLine what)) :: n.1, n.2)
  | Thrown.other => ([], some Thrown.other)

/-- Outcome of one iteration of the worker loop. -/
structure Iteration where
  sched : TaskScheduler
  events : List Event
  popped : Option ScheduledTask
  resubmitted : Option ScheduledTask
  escaped : Option Thrown

/-- One iteration of the `while` loop of `WorkerLoop`: wait when the queue is
empty (`taskQueue.empty()`, that is, there is no top); otherwise read the
clock and the top; when the top is due, pop it and run the `try` / `catch`;
when not, wait for the remaining time. -/
def TaskScheduler.WorkerLoopBody (s : TaskScheduler) (w : World) : Iteration :=
  match s.taskQueue.top with
  | none =>
    { sched := s, events := [Event.waitCalled], popped := none, resubmitted := none,
      escaped := none }
  | some nextTask =>
    if nextTask.runTime ≤ w.now then
      let r := tryBlock { s with taskQueue := s.taskQueue.pop } w nextTask
      match r.thrown with
      | none =>
        { sched := r.sched, events := r.events, popped := some nextTask,
          resubmitted := r.resubmitted, escaped := none }
      | some e =>
        { sched := r.sched, events := r.events ++ (catchBlock r.sched nextTask e).1,
          popped := some nextTask, resubmitted := r.resubmitted,
          escaped := (catchBlock r.sched nextTask e).2 }
    else
      { sched := s, events := [Event.waitForCalled (nextTask.runTime - w.now)],
        popped := none, resubmitted := none, escaped := none }

/-- Outcome of a run of the worker loop. -/
structure Run where
  sched : TaskScheduler
  events : List Event
  dispatched : List ScheduledTask
  resubmitted : List ScheduledTask
  escaped : Option Thrown

/-- `TaskScheduler::WorkerLoop` over the worlds its successive iterations
meet: it goes on while `stopFlag` is not set and no exception leaves the loop
body (which ends the thread). -/
def TaskScheduler.WorkerLoop (s : TaskScheduler) : List World → Run
  | [] => { sched := s, events := [], dispatched := [], resubmitted := [], escaped := none }
  | w :: ws =>
    if s.stopFlag then
      { sched := s, events := [], dispatched := [], resubmitted := [], escaped := none }
    else
      match (s.WorkerLoopBody w).escaped with
      | some e =>
        { sched := (s.WorkerLoopBody w).sched, events := (s.WorkerLoopBody w).events,
          dispatched := (s.WorkerLoopBody w).popped.toList,
          resubmitted := (s.WorkerLoopBody w).resubmitted.toList, escaped := some e }
      | none =>
        let r := TaskScheduler.WorkerLoop (s.WorkerLoopBody w).sched ws
        { sched := r.sched, events := (s.WorkerLoopBody w).events ++ r.events,
          dispatched := (s.WorkerLoopBody w).popped.toList ++ r.dispatched,
          resubmitted := (s.WorkerLoopBody w).resubmitted.toList ++ r.resubmitted,
          escaped := r.escaped }

/-- Submission of a list of tasks, one `AddTask` call after the other. -/
def TaskScheduler.addTasks (s : TaskScheduler) (tasks : List ScheduledTask) :
    TaskScheduler :=
  tasks.foldl TaskScheduler.AddTask s

/-- Registration of a list of observers, one `AddObserver` call after the other. -/
def TaskScheduler.addObservers (s : TaskScheduler) (obs : List Observer) :
    TaskScheduler :=
  obs.foldl TaskScheduler.AddObserver s

/-! ## Vocabulary of the properties -/

/-- The events of a notification that reaches all of `n` observers: each is
called once with `message`, in the order of registration. -/
def deliveries (n : Nat) (message : String) : List Event :=
  (List.range n).map (fun i => Event.observerCalled i message)

/-- The messages the observer registered at position `i` was called with, in
order. -/
def receivedBy (i : Nat) (events : List Event) : List String :=
  events.filterMap (fun ev =>
    match ev with
    | Event.observerCalled j m => if j = i then some m else none
    | _ => none)

/-- The jobs whose `Execute()` was called, in order. -/
def executions (events : List Event) : List ITask :=
  events.filterMap (fun ev =>
    match ev with
    | Event.executeCalled t => some t
    | _ => none)

/-- The lines written to the log, in order. -/
def logLines (events : List Event) : List String :=
  events.filterMap (fun ev =>
    match ev with
    | Event.logWritten line => some line
    | _ => none)

/-- A step of the program on the scheduler: a caller's `AddTask` or
`AddObserver`, or one iteration of the worker loop. -/
inductive Call where
  | AddTask (task : ScheduledTask)
  | AddObserver (observer : Observer)
  | WorkerIteration (w : World)

/-- Whether a step submits nothing periodic: every `AddTask` of the sequence
hands in a one-shot task. -/
def Call.oneShotOnly : Call → Bool
  | Call.AddTask task => !task.isPeriodic
  | _ => true

/-- The scheduler together with the record of what was submitted by callers,
what the worker popped for dispatch, what the worker itself resubmitted, and
whether an exception has left the worker loop (which ends the process). -/
structure History where
  sched : TaskScheduler
  submitted : List ScheduledTask
  dispatched : List ScheduledTask
  resubmitted : List ScheduledTask
  terminated : Bool

/-- The freshly constructed scheduler, nothing submitted yet. -/
def History.init : History :=
  { sched := TaskScheduler.init, submitted := [], dispatched := [], resubmitted := [],
    terminated := false }

/-- Effect of one step, each taken as a whole. -/
def History.step (h : History) : Call → History
  | Call.AddTask task =>
    if h.terminated then h
    else { h with sched := h.sched.AddTask task, submitted := h.submitted ++ [task] }
  | Call.AddObserver observer =>
    if h.terminated then h
    else { h with sched := h.sched.AddObserver observer }
  | Call.WorkerIteration w =>
    if h.terminated ∨ h.sched.stopFlag = true then h
    else
      { sched := (h.sched.WorkerLoopBody w).sched,
        submitted := h.submitted,
        dispatched := h.dispatched ++ (h.sched.WorkerLoopBody w).popped.toList,
        resubmitted := h.resubmitted ++ (h.sched.WorkerLoopBody w).resubmitted.toList,
        terminated := (h.sched.WorkerLoopBody w).escaped.isSome }

/-- Effect of a sequence of steps. -/
def History.run (h : History) (calls : List Call) : History :=
  calls.foldl History.step h

/-! ## Sample inputs -/

/-- A one-shot task named `name`, due at `runTime`. -/
def oneShot (name : String) (runTime : TimePoint) : ScheduledTask :=
  { task := { GetName := name }, runTime := runTime, isPeriodic := false,
    intervalSeconds := 0 }

/-- A world with the clock at `now`, then at `nowAfter`, in which jobs return. -/
def calmWorld (now nowAfter : TimePoint) : World :=
  { now := now, Execute := fun _ => none, nowAfter := nowAfter }

/-- A world in which every job throws a `std::exception` saying `what`. -/
def failingWorld (now nowAfter : TimePoint) (what : String) : World :=
  { now := now, Execute := fun _ => some (Thrown.stdException what), nowAfter := nowAfter }

/-- A world in which every job throws an object that is not a
`std::exception` (as `throw 42` does). -/
def brokenWorld (now nowAfter : TimePoint) : World :=
  { now := now, Execute := fun _ => some Thrown.other, nowAfter := nowAfter }

/-- A periodic task named `name`, due at `runTime`, repeating every
`interval` seconds. -/
def periodic (name : String) (runTime : TimePoint) (interval : Int) : ScheduledTask :=
  { task := { GetName := name }, runTime := runTime, isPeriodic := true,
    intervalSeconds := interval }

/-- An observer that always returns. -/
def quietObserver : Observer := fun _ => none

/-- An observer that throws a `std::exception` whatever the message. -/
def throwingObserver (what : String) : Observer :=
  fun _ => some (Thrown.stdException what)

/-- An observer that throws a `std::exception` on one message only. -/
def touchyObserver (trigger what : String) : Observer :=
  fun m => if m = trigger then some (Thrown.stdException what) else none

/-- An observer that throws a `std::exception` on the message `trigger`,
with that message as its text, and returns on every other message. -/
def throwingObserverOn (trigger : String) : Observer :=
  fun m => if m = trigger then some (Thrown.stdException m) else none

/-- The scheduler after the registration of `obs` and the submission of
`tasks`. -/
def schedulerWith (obs : List Observer) (tasks : List ScheduledTask) : TaskScheduler :=
  (TaskScheduler.init.addObservers obs).addTasks tasks

/-- Three submissions, due 3 s, 1 s and 2 s after tick 0, in this order. -/
def threeSubmissions : List Call :=
  [Call.AddTask (oneShot "3" (seconds 3)), Call.AddTask (oneShot "1" (seconds 1)),
    Call.AddTask (oneShot "2" (seconds 2))]

/-- Submissions of one-shot tasks interleaved with iterations of the worker,
some of them before the head of the queue is due. -/
def interleaving : List Call :=
  [Call.AddTask (oneShot "3" (seconds 3)), Call.WorkerIteration (calmWorld 0 0),
    Call.AddTask (oneShot "1" (seconds 1)), Call.WorkerIteration (calmWorld (seconds 1) (seconds 1)),
    Call.AddObserver quietObserver, Call.AddTask (oneShot "2" (seconds 2)),
    Call.WorkerIteration (failingWorld (seconds 2) (seconds 2) "boom"),
    Call.AddTask (oneShot "1" (seconds 1))]

/-- Three iterations of the worker after all of that is due. -/
def threeIterations : List World :=
  [calmWorld (seconds 4) (seconds 4), calmWorld (seconds 4) (seconds 4),
    calmWorld (seconds 4) (seconds 4)]

/-! ### Elementary facts about the vector operations -/

theorem keyAt_of_getElem? {v : TaskQueue} {i : Nat} {t : ScheduledTask}
    (h : v[i]? = some t) : keyAt v i = t.runTime := by
  simp [keyAt, h]

theorem length_swapAt (v : TaskQueue) (i j : Nat) :
    (swapAt v i j).length = v.length := by
  unfold swapAt
  split <;> simp

theorem keyAt_swapAt {v : TaskQueue} {i j : Nat} (hi : i < v.length)
    (hj : j < v.length) (k : Nat) :
    keyAt (swapAt v i j) k =
      if k = j then keyAt v i else if k = i then keyAt v j else keyAt v k := by
  have e1 : v[i]? = some v[i] := List.getElem?_eq_getElem hi
  have e2 : v[j]? = some v[j] := List.getElem?_eq_getElem hj
  simp only [swapAt, e1, e2, keyAt, List.getElem?_set, List.length_set]
  by_cases hkj : k = j
  · subst hkj; simp [hj]
  · by_cases hki : k = i
    · subst hki; simp [hi, Ne.symm hkj, hkj]
    · simp [hkj, hki, Ne.symm hkj, Ne.symm hki]

theorem set_cons_perm {α : Type} (l : List α) (i : Nat) (a b : α)
    (h : l[i]? = some a) : (a :: l.set i b).Perm (b :: l) := by
  induction l generalizing i with
  | nil => simp at h
  | cons x t ih =>
    cases i with
    | zero =>
      simp at h
      subst h
      exact List.Perm.swap b x t
    | succ k =>
      simp at h
      have := ih k h
      simp only [List.set_cons_succ]
      exact (List.Perm.swap x a _).trans ((this.cons x).trans (List.Perm.swap b x t))

theorem swapAt_perm (v : TaskQueue) (i j : Nat) : (swapAt v i j).Perm v := by
  unfold swapAt
  split
  · rename_i a b ha hb
    have hi : i < v.length := (List.getElem?_eq_some_iff.mp ha).1
    have h1 : (a :: v.set i b).Perm (b :: v) := set_cons_perm v i a b ha
    have hb2 : (v.set i b)[j]? = some b := by
      rw [List.getElem?_set]
      split
      · simp [hi]
      · exact hb
    have h2 := set_cons_perm (v.set i b) j b a hb2
    exact List.Perm.cons_inv (h2.trans h1)
  · exact List.Perm.refl v

theorem compAt_eq_true_iff {v : TaskQueue} {i j : Nat} (hi : i < v.length)
    (hj : j < v.length) : compAt v i j = true ↔ keyAt v j < keyAt v i := by
  have e1 : v[i]? = some v[i] := List.getElem?_eq_getElem hi
  have e2 : v[j]? = some v[j] := List.getElem?_eq_getElem hj
  simp [compAt, keyAt, e1, e2, ScheduledTask.operatorGt]

/-! ### `push_heap` restores the heap -/

theorem pushHeapByIndex_perm (fuel : Nat) (v : TaskQueue) (hole : Nat) :
    (pushHeapByIndex fuel v hole).Perm v := by
  induction fuel generalizing v hole with
  | zero => exact List.Perm.refl v
  | succ n ih =>
    unfold pushHeapByIndex
    split
    · exact (ih _ _).trans (swapAt_perm v _ _)
    · exact List.Perm.refl v

theorem isHeap_of_heapUpTo {v : TaskQueue} {hole : Nat} (h : HeapUpTo v hole)
    (hlink : keyAt v ((hole - 1) / 2) ≤ keyAt v hole) : IsHeap v := by
  intro i hi
  by_cases hih : i = hole
  · subst hih; exact hlink
  · exact h.1 i _ hi rfl hih

theorem heapUpTo_swapAt {v : TaskQueue} {hole : Nat} (hlen : hole < v.length)
    (hpos : 0 < hole) (h : HeapUpTo v hole)
    (hlt : keyAt v hole < keyAt v ((hole - 1) / 2)) :
    HeapUpTo (swapAt v ((hole - 1) / 2) hole) ((hole - 1) / 2) := by
  obtain ⟨p, hp⟩ : ∃ p, p = (hole - 1) / 2 := ⟨_, rfl⟩
  rw [← hp] at hlt ⊢
  have hpl : p < v.length := by omega
  obtain ⟨h1, h2⟩ := h
  have hpp : ∀ q, q = (p - 1) / 2 → keyAt v q ≤ keyAt v p :=
    fun q hq => h1 p q hpl hq (by omega)
  constructor
  · intro j q hj hq hjp
    rw [length_swapAt] at hj
    rw [keyAt_swapAt hpl hlen, keyAt_swapAt hpl hlen]
    split_ifs
    all_goals first
      | omega
      | exact h1 _ _ hj (by omega) (by omega)
      | exact h2 _ _ hj (by omega) hpos (by omega)
      | exact le_trans (le_of_lt hlt) (h1 _ _ hj (by omega) (by omega))
  · intro j q hj hjp hppos hq
    rw [length_swapAt] at hj
    rw [keyAt_swapAt hpl hlen, keyAt_swapAt hpl hlen]
    split_ifs
    all_goals first
      | omega
      | exact hpp _ (by omega)
      | exact le_trans (hpp _ (by omega)) (h1 _ _ hj (by omega) (by omega))

theorem pushHeapByIndex_isHeap (fuel : Nat) (v : TaskQueue) (hole : Nat)
    (hfuel : hole ≤ fuel) (hlen : hole < v.length) (h : HeapUpTo v hole) :
    IsHeap (pushHeapByIndex fuel v hole) := by
  induction fuel generalizing v hole with
  | zero =>
    have h0 : hole = 0 := by omega
    subst h0
    exact isHeap_of_heapUpTo h (le_refl _)
  | succ n ih =>
    unfold pushHeapByIndex
    split
    · rename_i hc
      have hpl : (hole - 1) / 2 < v.length := by omega
      have hlt := (compAt_eq_true_iff hpl hlen).mp hc.2
      exact ih _ _ (by omega) (by rw [length_swapAt]; exact hpl)
        (heapUpTo_swapAt hlen hc.1 h hlt)
    · rename_i hc
      by_cases h0 : hole = 0
      · subst h0
        exact isHeap_of_heapUpTo h (le_refl _)
      · have hpl : (hole - 1) / 2 < v.length := by omega
        have hn : ¬ compAt v ((hole - 1) / 2) hole = true := fun hx =>
          hc ⟨Nat.pos_of_ne_zero h0, hx⟩
        rw [compAt_eq_true_iff hpl hlen] at hn
        exact isHeap_of_heapUpTo h (not_lt.mp hn)

/-! ### `pop_heap` restores the heap -/

theorem holeAt_swapAt {v : TaskQueue} {hole idx : Nat} (hlen : hole < v.length)
    (hidx : idx < v.length) (hchild : (idx - 1) / 2 = hole) (hpos : 0 < idx)
    (h : HoleAt v hole)
    (hsib : ∀ j, j < v.length → (j - 1) / 2 = hole → 0 < j →
      keyAt v idx ≤ keyAt v j) :
    HoleAt (swapAt v hole idx) idx := by
  obtain ⟨h1, h2⟩ := h
  constructor
  · intro j q hj hq hjp hqp
    rw [length_swapAt] at hj
    rw [keyAt_swapAt hlen hidx, keyAt_swapAt hlen hidx]
    split_ifs
    all_goals first
      | omega
      | exact h1 _ _ hj (by omega) (by omega) (by omega)
      | exact h2 _ _ hidx hchild (by omega) (by omega)
      | exact hsib _ hj (by omega) (by omega)
  · intro j q hj hjp _ hq
    rw [length_swapAt] at hj
    rw [keyAt_swapAt hlen hidx, keyAt_swapAt hlen hidx]
    split_ifs
    all_goals first
      | omega
      | exact h1 _ _ hj (by omega) (by omega) (by omega)

theorem heapUpTo_of_holeAt_leaf {v : TaskQueue} {hole : Nat} (h : HoleAt v hole)
    (hleaf : v.length ≤ 2 * hole + 1) : HeapUpTo v hole := by
  obtain ⟨h1, h2⟩ := h
  constructor
  · intro j q hj hq hjh
    by_cases hq0 : q = hole
    · have hj0 : j = 0 := by omega
      have hq1 : q = 0 := by omega
      subst hj0; subst hq1
      exact le_refl _
    · exact h1 j q hj hq hjh hq0
  · intro j q hj hjp hpos hq
    exact h2 j q hj hjp hpos hq

theorem popHeapHoleByIndex_spec (fuel : Nat) (v : TaskQueue) (hole : Nat)
    (hfuel : v.length ≤ hole + fuel) (hlen : hole < v.length)
    (h : HoleAt v hole) :
    (popHeapHoleByIndex fuel v hole).1.length = v.length ∧
    (popHeapHoleByIndex fuel v hole).2 < v.length ∧
    (popHeapHoleByIndex fuel v hole).1.Perm v ∧
    HeapUpTo (popHeapHoleByIndex fuel v hole).1 (popHeapHoleByIndex fuel v hole).2 := by
  induction fuel generalizing v hole with
  | zero => omega
  | succ n ih =>
    unfold popHeapHoleByIndex
    split
    · rename_i hr
      have hl : 2 * hole + 1 < v.length := by omega
      simp only []
      split
      · rename_i hc
        have hlt := (compAt_eq_true_iff hr hl).mp hc
        have hH : HoleAt (swapAt v hole (2 * hole + 1)) (2 * hole + 1) := by
          refine holeAt_swapAt hlen hl (by omega) (by omega) h ?_
          intro j hj hjp hj0
          obtain rfl | rfl : j = 2 * hole + 1 ∨ j = 2 * hole + 2 := by omega
          · exact le_refl _
          · exact le_of_lt hlt
        obtain ⟨a, b, c, d⟩ := ih (swapAt v hole (2 * hole + 1)) (2 * hole + 1)
          (by rw [length_swapAt]; omega) (by rw [length_swapAt]; exact hl) hH
        rw [length_swapAt] at a b
        exact ⟨a, b, c.trans (swapAt_perm _ _ _), d⟩
      · rename_i hc
        rw [compAt_eq_true_iff hr hl] at hc
        have hH : HoleAt (swapAt v hole (2 * hole + 2)) (2 * hole + 2) := by
          refine holeAt_swapAt hlen hr (by omega) (by omega) h ?_
          intro j hj hjp hj0
          obtain rfl | rfl : j = 2 * hole + 1 ∨ j = 2 * hole + 2 := by omega
          · exact not_lt.mp hc
          · exact le_refl _
        obtain ⟨a, b, c, d⟩ := ih (swapAt v hole (2 * hole + 2)) (2 * hole + 2)
          (by rw [length_swapAt]; omega) (by rw [length_swapAt]; exact hr) hH
        rw [length_swapAt] at a b
        exact ⟨a, b, c.trans (swapAt_perm _ _ _), d⟩
    · rename_i hr
      split
      · rename_i hl
        have hH : HoleAt (swapAt v hole (2 * hole + 1)) (2 * hole + 1) := by
          refine holeAt_swapAt hlen hl (by omega) (by omega) h ?_
          intro j hj hjp hj0
          obtain rfl : j = 2 * hole + 1 := by omega
          exact le_refl _
        refine ⟨length_swapAt _ _ _, hl, swapAt_perm _ _ _, ?_⟩
        exact heapUpTo_of_holeAt_leaf hH (by rw [length_swapAt]; omega)
      · rename_i hl
        exact ⟨rfl, hlen, List.Perm.refl v,
          @heapUpTo_of_holeAt_leaf v hole h (by omega)⟩

theorem popHeapHoleByIndex_perm (fuel : Nat) (v : TaskQueue) (hole : Nat) :
    (popHeapHoleByIndex fuel v hole).1.Perm v := by
  induction fuel generalizing v hole with
  | zero => exact List.Perm.refl v
  | succ n ih =>
    unfold popHeapHoleByIndex
    split
    · exact (ih _ _).trans (swapAt_perm _ _ _)
    · split
      · exact swapAt_perm _ _ _
      · exact List.Perm.refl v

/-! ### The queue operations keep the heap and the multiset of entries -/

theorem isHeap_nil : IsHeap [] := by
  intro i hi
  simp at hi

theorem keyAt_append_left {v : TaskQueue} {k : Nat} (hk : k < v.length)
    (w : TaskQueue) : keyAt (v ++ w) k = keyAt v k := by
  simp [keyAt, List.getElem?_append_left hk]

theorem keyAt_set_ne (v : TaskQueue) {i k : Nat} (hne : i ≠ k)
    (x : ScheduledTask) : keyAt (v.set i x) k = keyAt v k := by
  simp [keyAt, List.getElem?_set_ne hne]

theorem keyAt_dropLast {v : TaskQueue} {k : Nat} (hk : k < v.length - 1) :
    keyAt v.dropLast k = keyAt v k := by
  simp only [keyAt, List.getElem?_dropLast, hk, if_true]

theorem TaskQueue.push_perm (v : TaskQueue) (x : ScheduledTask) :
    (v.push x).Perm (x :: v) :=
  (pushHeapByIndex_perm _ _ _).trans (List.perm_append_singleton x v)

theorem TaskQueue.push_isHeap {v : TaskQueue} (h : IsHeap v) (x : ScheduledTask) :
    IsHeap (v.push x) := by
  unfold TaskQueue.push
  apply pushHeapByIndex_isHeap _ _ _ (le_refl _) (by simp)
  constructor
  · intro j q hj hq hjn
    have hj2 : j < v.length := by
      simp at hj; omega
    have hq2 : q < v.length := by omega
    rw [keyAt_append_left hj2, keyAt_append_left hq2, hq]
    exact h j hj2
  · intro j q hj hjp hpos hq
    simp at hj
    omega

theorem TaskQueue.pop_perm {v : TaskQueue} {t : ScheduledTask}
    (ht : v.top = some t) : v.Perm (t :: v.pop) := by
  cases v with
  | nil => simp [TaskQueue.top] at ht
  | cons a rest =>
    simp only [TaskQueue.top, List.head?_cons, Option.some.injEq] at ht
    subst ht
    cases hlast : (a :: rest).getLast? with
    | none => simp at hlast
    | some val =>
      have hsplit : (a :: rest).dropLast ++ [val] = a :: rest :=
        List.dropLast_append_getLast? val hlast
      unfold TaskQueue.pop
      rw [hlast]
      simp only []
      cases rest with
      | nil => simp
      | cons b rest2 =>
        have hne : ¬ (a :: b :: rest2).dropLast.length = 0 := by simp
        rw [if_neg hne]
        have hd : (a :: b :: rest2).dropLast = a :: (b :: rest2).dropLast := by
          simp [List.dropLast]
        rw [hd] at hsplit ⊢
        simp only [List.set_cons_zero]
        have h1 := pushHeapByIndex_perm
          (popHeapHoleByIndex (a :: (b :: rest2).dropLast).length
            (val :: (b :: rest2).dropLast) 0).2
          (popHeapHoleByIndex (a :: (b :: rest2).dropLast).length
            (val :: (b :: rest2).dropLast) 0).1
          (popHeapHoleByIndex (a :: (b :: rest2).dropLast).length
            (val :: (b :: rest2).dropLast) 0).2
        have h2 := popHeapHoleByIndex_perm (a :: (b :: rest2).dropLast).length
          (val :: (b :: rest2).dropLast) 0
        have h3 : (a :: b :: rest2).Perm (a :: val :: (b :: rest2).dropLast) := by
          rw [← hsplit]
          exact (List.perm_append_singleton val ((b :: rest2).dropLast)).cons a
        exact h3.trans (((h1.trans h2).symm).cons a)

theorem TaskQueue.pop_isHeap {v : TaskQueue} (h : IsHeap v) : IsHeap v.pop := by
  unfold TaskQueue.pop
  cases hlast : v.getLast? with
  | none => exact h
  | some val =>
    simp only []
    split
    · rename_i h0
      rw [List.length_eq_zero] at h0
      rw [h0]
      exact isHeap_nil
    · rename_i hne
      have hlen : v.dropLast.length = v.length - 1 := List.length_dropLast v
      have hH : HoleAt (v.dropLast.set 0 val) 0 := by
        constructor
        · intro j q hj hq hj0 hq0
          rw [List.length_set, hlen] at hj
          rw [keyAt_set_ne _ (Ne.symm hj0), keyAt_set_ne _ (Ne.symm hq0),
            keyAt_dropLast hj, keyAt_dropLast (by omega), hq]
          exact h j (by omega)
        · intro j q hj hjp hpos hq
          omega
      obtain ⟨a, b, _, d⟩ := popHeapHoleByIndex_spec v.dropLast.length
        (v.dropLast.set 0 val) 0 (by simp) (by rw [List.length_set]; omega) hH
      exact pushHeapByIndex_isHeap _ _ _ (le_refl _) (by rw [a]; exact b) d

theorem keyAt_zero_le {v : TaskQueue} (h : IsHeap v) (i : Nat) (hi : i < v.length) :
    keyAt v 0 ≤ keyAt v i := by
  induction i using Nat.strong_induction_on with
  | _ i ih =>
    by_cases h0 : i = 0
    · subst h0; exact le_refl _
    · exact le_trans (ih ((i - 1) / 2) (by omega) (by omega)) (h i hi)

theorem TaskQueue.top_le {v : TaskQueue} (h : IsHeap v) {t : ScheduledTask}
    (ht : v.top = some t) (x : ScheduledTask) (hx : x ∈ v) :
    t.runTime ≤ x.runTime := by
  obtain ⟨i, hi, hxi⟩ := List.getElem_of_mem hx
  have h0 : v[0]? = some t := by
    rw [← List.head?_eq_getElem?]; exact ht
  have hi2 : v[i]? = some x := by
    rw [List.getElem?_eq_getElem hi, hxi]
  have := keyAt_zero_le h i hi
  rwa [keyAt_of_getElem? h0, keyAt_of_getElem? hi2] at this

theorem TaskQueue.top_eq_none_iff (v : TaskQueue) : v.top = none ↔ v = [] := by
  cases v <;> simp [TaskQueue.top]

theorem TaskQueue.top_mem {v : TaskQueue} {t : ScheduledTask}
    (ht : v.top = some t) : t ∈ v := by
  cases v with
  | nil => simp [TaskQueue.top] at ht
  | cons a rest =>
    simp only [TaskQueue.top, List.head?_cons, Option.some.injEq] at ht
    simp [ht]

/-! ### Notifications -/

theorem notifyFrom_of_all_return (m : String) (obs : List Observer)
    (hobs : ∀ o ∈ obs, o m = none) (i : Nat) :
    notifyFrom m i obs =
      ((List.range' i obs.length).map (fun k => Event.observerCalled k m), none) := by
  induction obs generalizing i with
  | nil => rfl
  | cons o rest ih =>
    have ho : o m = none := hobs o (List.mem_cons_self o rest)
    have hrest := ih (fun x hx => hobs x (List.mem_cons_of_mem o hx)) (i + 1)
    simp only [notifyFrom, ho, hrest, List.length_cons, List.range'_succ, List.map_cons]

theorem notifyObservers_of_all_return (s : TaskScheduler) (m : String)
    (hobs : ∀ o ∈ s.observers, o m = none) :
    s.NotifyObservers m = (deliveries s.observers.length m, none) := by
  unfold TaskScheduler.NotifyObservers deliveries
  rw [notifyFrom_of_all_return m s.observers hobs 0, List.range_eq_range']

theorem notifyFrom_of_first_throw (m : String) (pre post : List Observer)
    (bad : Observer) (err : Thrown) (hpre : ∀ o ∈ pre, o m = none)
    (hbad : bad m = some err) (i : Nat) :
    notifyFrom m i (pre ++ bad :: post) =
      ((List.range' i (pre.length + 1)).map (fun k => Event.observerCalled k m),
        some err) := by
  induction pre generalizing i with
  | nil => simp [notifyFrom, hbad, List.range'_succ]
  | cons o rest ih =>
    have ho : o m = none := hpre o (List.mem_cons_self o rest)
    have hrest := ih (fun x hx => hpre x (List.mem_cons_of_mem o hx)) (i + 1)
    rw [List.cons_append]
    simp only [notifyFrom, ho]
    rw [hrest]
    simp only [List.length_cons, List.range'_succ, List.map_cons]

/-! ### One iteration of the worker loop -/

theorem workerLoopBody_of_empty (s : TaskScheduler) (w : World)
    (h : s.taskQueue.top = none) :
    s.WorkerLoopBody w =
      { sched := s, events := [Event.waitCalled], popped := none, resubmitted := none,
        escaped := none } := by
  simp only [TaskScheduler.WorkerLoopBody, h]

theorem workerLoopBody_of_not_due (s : TaskScheduler) (w : World) (e : ScheduledTask)
    (h : s.taskQueue.top = some e) (hnd : ¬ e.runTime ≤ w.now) :
    s.WorkerLoopBody w =
      { sched := s, events := [Event.waitForCalled (e.runTime - w.now)],
        popped := none, resubmitted := none, escaped := none } := by
  simp only [TaskScheduler.WorkerLoopBody, h, if_neg hnd]

theorem workerLoopBody_of_due (s : TaskScheduler) (w : World) (e : ScheduledTask)
    (h : s.taskQueue.top = some e) (hdue : e.runTime ≤ w.now) :
    s.WorkerLoopBody w =
      match (tryBlock { s with taskQueue := s.taskQueue.pop } w e).thrown with
      | none =>
        { sched := (tryBlock { s with taskQueue := s.taskQueue.pop } w e).sched,
          events := (tryBlock { s with taskQueue := s.taskQueue.pop } w e).events,
          popped := some e,
          resubmitted := (tryBlock { s with taskQueue := s.taskQueue.pop } w e).resubmitted,
          escaped := none }
      | some err =>
        { sched := (tryBlock { s with taskQueue := s.taskQueue.pop } w e).sched,
          events := (tryBlock { s with taskQueue := s.taskQueue.pop } w e).events ++
            (catchBlock (tryBlock { s with taskQueue := s.taskQueue.pop } w e).sched e err).1,
          popped := some e,
          resubmitted := (tryBlock { s with taskQueue := s.taskQueue.pop } w e).resubmitted,
          escaped :=
            (catchBlock (tryBlock { s with taskQueue := s.taskQueue.pop } w e).sched e err).2 } := by
  simp only [TaskScheduler.WorkerLoopBody, h, if_pos hdue]

/-- The `try` block either leaves the scheduler as it is and resubmits
nothing, or ends normally having resubmitted a periodic task by `AddTask`. -/
theorem tryBlock_cases (s : TaskScheduler) (w : World) (e : ScheduledTask) :
    ((tryBlock s w e).sched = s ∧ (tryBlock s w e).resubmitted = none) ∨
    (e.isPeriodic = true ∧ (tryBlock s w e).thrown = none ∧
      (tryBlock s w e).resubmitted =
        some (rescheduled e w.nowAfter) ∧
      (tryBlock s w e).sched =
        s.AddTask (rescheduled e w.nowAfter)) := by
  unfold tryBlock
  simp only []
  split
  · exact Or.inl ⟨rfl, rfl⟩
  · split
    · exact Or.inl ⟨rfl, rfl⟩
    · split
      · exact Or.inl ⟨rfl, rfl⟩
      · split
        · rename_i hp
          exact Or.inr ⟨hp, rfl, rfl, rfl⟩
        · exact Or.inl ⟨rfl, rfl⟩

/-- What an iteration does to the queue: nothing, or a pop of the top, or a
pop of the top followed by the push of the rescheduled periodic task.  The
observers and the stop flag are kept. -/
theorem workerLoopBody_cases (s : TaskScheduler) (w : World) :
    (s.WorkerLoopBody w).sched.observers = s.observers ∧
    (s.WorkerLoopBody w).sched.stopFlag = s.stopFlag ∧
    (((s.WorkerLoopBody w).popped = none ∧ (s.WorkerLoopBody w).resubmitted = none ∧
        (s.WorkerLoopBody w).sched.taskQueue = s.taskQueue) ∨
     (∃ e, s.taskQueue.top = some e ∧ e.runTime ≤ w.now ∧
        (s.WorkerLoopBody w).popped = some e ∧
        (((s.WorkerLoopBody w).resubmitted = none ∧
            (s.WorkerLoopBody w).sched.taskQueue = s.taskQueue.pop) ∨
         (e.isPeriodic = true ∧ (s.WorkerLoopBody w).escaped = none ∧
            (s.WorkerLoopBody w).resubmitted =
              some (rescheduled e w.nowAfter) ∧
            (s.WorkerLoopBody w).sched.taskQueue =
              s.taskQueue.pop.push
                (rescheduled e w.nowAfter))))) := by
  cases htop : s.taskQueue.top with
  | none =>
    rw [workerLoopBody_of_empty s w htop]
    exact ⟨rfl, rfl, Or.inl ⟨rfl, rfl, rfl⟩⟩
  | some e =>
    by_cases hdue : e.runTime ≤ w.now
    · have hb := workerLoopBody_of_due s w e htop hdue
      rcases tryBlock_cases { s with taskQueue := s.taskQueue.pop } w e with
        ⟨h1, h2⟩ | ⟨hp, h1, h2, h3⟩
      · cases hthr : (tryBlock { s with taskQueue := s.taskQueue.pop } w e).thrown with
        | none =>
          rw [hthr] at hb
          rw [hb]
          exact ⟨by rw [h1], by rw [h1],
            Or.inr ⟨e, rfl, hdue, rfl, Or.inl ⟨h2, by rw [h1]⟩⟩⟩
        | some err =>
          rw [hthr] at hb
          rw [hb]
          exact ⟨by rw [h1], by rw [h1],
            Or.inr ⟨e, rfl, hdue, rfl, Or.inl ⟨h2, by rw [h1]⟩⟩⟩
      · rw [h1] at hb
        rw [hb]
        exact ⟨by rw [h3]; rfl, by rw [h3]; rfl,
          Or.inr ⟨e, rfl, hdue, rfl, Or.inr ⟨hp, rfl, h2, by rw [h3]; rfl⟩⟩⟩
    · rw [workerLoopBody_of_not_due s w e htop hdue]
      exact ⟨rfl, rfl, Or.inl ⟨rfl, rfl, rfl⟩⟩

theorem workerLoopBody_isHeap (s : TaskScheduler) (w : World)
    (h : IsHeap s.taskQueue) : IsHeap (s.WorkerLoopBody w).sched.taskQueue := by
  rcases (workerLoopBody_cases s w).2.2 with ⟨_, _, hq⟩ | ⟨e, _, _, _, ⟨_, hq⟩ | ⟨_, _, _, hq⟩⟩
  · rw [hq]; exact h
  · rw [hq]; exact TaskQueue.pop_isHeap h
  · rw [hq]; exact TaskQueue.push_isHeap (TaskQueue.pop_isHeap h) _

/-! ### Runs of the worker loop -/

theorem optionToList_eq_nil {α : Type} (o : Option α) : o.toList = [] ↔ o = none := by
  cases o <;> simp

theorem workerLoop_cons_of_stop (s : TaskScheduler) (w : World) (ws : List World)
    (h : s.stopFlag = true) :
    s.WorkerLoop (w :: ws) =
      { sched := s, events := [], dispatched := [], resubmitted := [], escaped := none } := by
  simp only [TaskScheduler.WorkerLoop, h, if_true]

theorem workerLoop_cons_of_escaped (s : TaskScheduler) (w : World) (ws : List World)
    (h : s.stopFlag = false) (err : Thrown)
    (hesc : (s.WorkerLoopBody w).escaped = some err) :
    s.WorkerLoop (w :: ws) =
      { sched := (s.WorkerLoopBody w).sched, events := (s.WorkerLoopBody w).events,
        dispatched := (s.WorkerLoopBody w).popped.toList,
        resubmitted := (s.WorkerLoopBody w).resubmitted.toList, escaped := some err } := by
  simp only [TaskScheduler.WorkerLoop, h, hesc, Bool.false_eq_true, if_false]

theorem workerLoop_cons_of_continue (s : TaskScheduler) (w : World) (ws : List World)
    (h : s.stopFlag = false) (hesc : (s.WorkerLoopBody w).escaped = none) :
    s.WorkerLoop (w :: ws) =
      { sched := ((s.WorkerLoopBody w).sched.WorkerLoop ws).sched,
        events := (s.WorkerLoopBody w).events ++
          ((s.WorkerLoopBody w).sched.WorkerLoop ws).events,
        dispatched := (s.WorkerLoopBody w).popped.toList ++
          ((s.WorkerLoopBody w).sched.WorkerLoop ws).dispatched,
        resubmitted := (s.WorkerLoopBody w).resubmitted.toList ++
          ((s.WorkerLoopBody w).sched.WorkerLoop ws).resubmitted,
        escaped := ((s.WorkerLoopBody w).sched.WorkerLoop ws).escaped } := by
  simp only [TaskScheduler.WorkerLoop, h, hesc, Bool.false_eq_true, if_false]

/-- An iteration that resubmits nothing pops a minimum of the queue, if it
pops, and leaves a queue whose entries were all in the queue before. -/
theorem workerLoopBody_no_resubmit (s : TaskScheduler) (w : World)
    (hheap : IsHeap s.taskQueue) (hres : (s.WorkerLoopBody w).resubmitted = none) :
    (∀ x ∈ (s.WorkerLoopBody w).sched.taskQueue, x ∈ s.taskQueue) ∧
    (∀ e ∈ (s.WorkerLoopBody w).popped.toList,
      e ∈ s.taskQueue ∧ ∀ x ∈ s.taskQueue, e.runTime ≤ x.runTime) := by
  rcases (workerLoopBody_cases s w).2.2 with
    ⟨hp, _, hq⟩ | ⟨e, htop, _, hp, ⟨_, hq⟩ | ⟨_, _, hr, _⟩⟩
  · rw [hp, hq]
    exact ⟨fun x hx => hx, fun e he => by simp at he⟩
  · rw [hp, hq]
    refine ⟨fun x hx => ?_, fun e2 he2 => ?_⟩
    · exact (TaskQueue.pop_perm htop).symm.subset (List.mem_cons_of_mem e hx)
    · simp only [Option.toList_some, List.mem_singleton] at he2
      subst he2
      exact ⟨TaskQueue.top_mem htop, TaskQueue.top_le hheap htop⟩
  · rw [hr] at hres
    exact absurd hres (by simp)

theorem workerLoop_sorted_aux (ws : List World) (s : TaskScheduler)
    (hheap : IsHeap s.taskQueue) (hres : (s.WorkerLoop ws).resubmitted = []) :
    (s.WorkerLoop ws).dispatched.Pairwise (fun a b => a.runTime ≤ b.runTime) ∧
    ∀ x ∈ (s.WorkerLoop ws).dispatched, x ∈ s.taskQueue := by
  induction ws generalizing s with
  | nil => exact ⟨List.Pairwise.nil, fun x hx => by simp [TaskScheduler.WorkerLoop] at hx⟩
  | cons w ws ih =>
    cases hstop : s.stopFlag with
    | true =>
      rw [workerLoop_cons_of_stop s w ws hstop]
      exact ⟨List.Pairwise.nil, fun x hx => by simp at hx⟩
    | false =>
      cases hesc : (s.WorkerLoopBody w).escaped with
      | some err =>
        rw [workerLoop_cons_of_escaped s w ws hstop err hesc] at hres ⊢
        simp only [optionToList_eq_nil] at hres
        have hb := workerLoopBody_no_resubmit s w hheap hres
        refine ⟨?_, fun x hx => (hb.2 x hx).1⟩
        cases (s.WorkerLoopBody w).popped <;> simp
      | none =>
        rw [workerLoop_cons_of_continue s w ws hstop hesc] at hres ⊢
        simp only [List.append_eq_nil, optionToList_eq_nil] at hres
        have hb := workerLoopBody_no_resubmit s w hheap hres.1
        have hrec := ih (s.WorkerLoopBody w).sched (workerLoopBody_isHeap s w hheap) hres.2
        refine ⟨?_, fun x hx => ?_⟩
        · simp only []
          rw [List.pairwise_append]
          refine ⟨?_, hrec.1, fun a ha b hb2 => ?_⟩
          · cases (s.WorkerLoopBody w).popped <;> simp
          · exact (hb.2 a ha).2 b (hb.1 b (hrec.2 b hb2))
        · simp only [List.mem_append] at hx
          rcases hx with hx | hx
          · exact (hb.2 x hx).1
          · exact hb.1 x (hrec.2 x hx)

/-! ### Sequences of steps -/

theorem History.run_nil (h : History) : h.run [] = h := rfl

theorem History.run_cons (h : History) (c : Call) (calls : List Call) :
    h.run (c :: calls) = (h.step c).run calls := rfl

theorem History.step_isHeap (h : History) (c : Call) (hh : IsHeap h.sched.taskQueue) :
    IsHeap (h.step c).sched.taskQueue := by
  cases c with
  | AddTask task =>
    simp only [History.step]
    split
    · exact hh
    · exact TaskQueue.push_isHeap hh task
  | AddObserver observer =>
    simp only [History.step]
    split
    · exact hh
    · exact hh
  | WorkerIteration w =>
    simp only [History.step]
    split
    · exact hh
    · exact workerLoopBody_isHeap _ w hh

theorem History.run_isHeap (calls : List Call) (h : History)
    (hh : IsHeap h.sched.taskQueue) : IsHeap (h.run calls).sched.taskQueue := by
  induction calls generalizing h with
  | nil => exact hh
  | cons c calls ih =>
    rw [History.run_cons]
    exact ih _ (History.step_isHeap h c hh)

/-! ### Accounting of the entries -/

theorem History.step_balance (h : History) (c : Call)
    (hb : (h.submitted ++ h.resubmitted).Perm (h.sched.taskQueue ++ h.dispatched)) :
    ((h.step c).submitted ++ (h.step c).resubmitted).Perm
      ((h.step c).sched.taskQueue ++ (h.step c).dispatched) := by
  cases c with
  | AddTask task =>
    simp only [History.step]
    split
    · exact hb
    · have hp := TaskQueue.push_perm h.sched.taskQueue task
      simp only [TaskScheduler.AddTask]
      rw [← Multiset.coe_eq_coe] at hb hp ⊢
      simp only [← Multiset.coe_add, ← Multiset.cons_coe, ← Multiset.singleton_add,
        Multiset.coe_nil, add_zero] at hb hp ⊢
      rw [hp, add_assoc ({task} : Multiset ScheduledTask), ← hb]
      abel
  | AddObserver observer =>
    simp only [History.step]
    split
    · exact hb
    · exact hb
  | WorkerIteration w =>
    simp only [History.step]
    split
    · exact hb
    · rcases (workerLoopBody_cases h.sched w).2.2 with
        ⟨hp, hr, hq⟩ | ⟨e, htop, _, hp, ⟨hr, hq⟩ | ⟨_, _, hr, hq⟩⟩
      · simp only [hp, hr, hq, Option.toList_none, List.append_nil]
        exact hb
      · have hpp := TaskQueue.pop_perm htop
        simp only [hp, hr, hq, Option.toList_none, Option.toList_some, List.append_nil]
        rw [← Multiset.coe_eq_coe] at hb hpp ⊢
        simp only [← Multiset.coe_add, ← Multiset.cons_coe, ← Multiset.singleton_add,
          Multiset.coe_nil, add_zero] at hb hpp ⊢
        rw [hb, hpp]
        abel
      · have hpp := TaskQueue.pop_perm htop
        have hpu := TaskQueue.push_perm h.sched.taskQueue.pop
          (rescheduled e w.nowAfter)
        simp only [hp, hr, hq, Option.toList_some]
        rw [← Multiset.coe_eq_coe] at hb hpp hpu ⊢
        simp only [← Multiset.coe_add, ← Multiset.cons_coe, ← Multiset.singleton_add,
          Multiset.coe_nil, add_zero] at hb hpp hpu ⊢
        rw [hpu, ← add_assoc, hb, hpp]
        abel

theorem History.run_balance (calls : List Call) (h : History)
    (hb : (h.submitted ++ h.resubmitted).Perm (h.sched.taskQueue ++ h.dispatched)) :
    ((h.run calls).submitted ++ (h.run calls).resubmitted).Perm
      ((h.run calls).sched.taskQueue ++ (h.run calls).dispatched) := by
  induction calls generalizing h with
  | nil => exact hb
  | cons c calls ih =>
    rw [History.run_cons]
    exact ih _ (History.step_balance h c hb)

theorem History.step_oneShot (h : History) (c : Call) (hc : c.oneShotOnly = true)
    (hq : ∀ x ∈ h.sched.taskQueue, x.isPeriodic = false) (hr : h.resubmitted = []) :
    (∀ x ∈ (h.step c).sched.taskQueue, x.isPeriodic = false) ∧
    (h.step c).resubmitted = [] := by
  cases c with
  | AddTask task =>
    simp only [History.step]
    split
    · exact ⟨hq, hr⟩
    · refine ⟨fun x hx => ?_, hr⟩
      have hx2 := (TaskQueue.push_perm h.sched.taskQueue task).subset hx
      rcases List.mem_cons.mp hx2 with rfl | hx3
      · simpa [Call.oneShotOnly] using hc
      · exact hq x hx3
  | AddObserver observer =>
    simp only [History.step]
    split
    · exact ⟨hq, hr⟩
    · exact ⟨hq, hr⟩
  | WorkerIteration w =>
    simp only [History.step]
    split
    · exact ⟨hq, hr⟩
    · rcases (workerLoopBody_cases h.sched w).2.2 with
        ⟨_, hr2, hq2⟩ | ⟨e, htop, _, _, ⟨hr2, hq2⟩ | ⟨hper, _, _, _⟩⟩
      · simp only [hr2, hq2, hr, Option.toList_none, List.append_nil]
        exact ⟨hq, trivial⟩
      · simp only [hr2, hq2, hr, Option.toList_none, List.append_nil]
        refine ⟨fun x hx => ?_, trivial⟩
        exact hq x ((TaskQueue.pop_perm htop).symm.subset (List.mem_cons_of_mem e hx))
      · have := hq e (TaskQueue.top_mem htop)
        rw [this] at hper
        exact absurd hper (by simp)

theorem History.run_oneShot (calls : List Call) (h : History)
    (hc : ∀ c ∈ calls, c.oneShotOnly = true)
    (hq : ∀ x ∈ h.sched.taskQueue, x.isPeriodic = false) (hr : h.resubmitted = []) :
    (h.run calls).resubmitted = [] := by
  induction calls generalizing h with
  | nil => exact hr
  | cons c calls ih =>
    rw [History.run_cons]
    have hs := History.step_oneShot h c (hc c (List.mem_cons_self c calls)) hq hr
    exact ih _ (fun x hx => hc x (List.mem_cons_of_mem c hx)) hs.1 hs.2

/-! ### Facts about the vocabulary -/

theorem executions_append (a b : List Event) :
    executions (a ++ b) = executions a ++ executions b := by
  simp [executions, List.filterMap_append]

theorem executions_deliveries (n : Nat) (m : String) : executions (deliveries n m) = [] := by
  simp [executions, deliveries, List.filterMap_map]

theorem logLines_append (a b : List Event) :
    logLines (a ++ b) = logLines a ++ logLines b := by
  simp [logLines, List.filterMap_append]

theorem logLines_deliveries (n : Nat) (m : String) : logLines (deliveries n m) = [] := by
  simp [logLines, deliveries, List.filterMap_map]

theorem receivedBy_append (i : Nat) (a b : List Event) :
    receivedBy i (a ++ b) = receivedBy i a ++ receivedBy i b := by
  simp [receivedBy, List.filterMap_append]

theorem deliveries_succ (n : Nat) (m : String) :
    deliveries (n + 1) m = deliveries n m ++ [Event.observerCalled n m] := by
  simp [deliveries, List.range_succ]

theorem receivedBy_deliveries (n i : Nat) (m : String) :
    receivedBy i (deliveries n m) = if i < n then [m] else [] := by
  induction n with
  | zero => simp [deliveries, receivedBy]
  | succ n ih =>
    rw [deliveries_succ, receivedBy_append, ih]
    by_cases h1 : i < n
    · have h2 : n ≠ i := by omega
      have h3 : i < n + 1 := by omega
      simp [receivedBy, h1, h2, h3]
    · by_cases h2 : n = i
      · subst h2
        simp [receivedBy]
      · have h3 : ¬ i < n + 1 := by omega
        simp [receivedBy, h1, h2, h3]

/-- With observers that return, an iteration on a due top whose job returns
runs the whole `try` block. -/
theorem workerLoopBody_of_success (s : TaskScheduler) (w : World) (e : ScheduledTask)
    (htop : s.taskQueue.top = some e) (hdue : e.runTime ≤ w.now)
    (hjob : w.Execute e.task = none) (hobs : ∀ o ∈ s.observers, ∀ m, o m = none) :
    s.WorkerLoopBody w =
      { sched :=
          if e.isPeriodic = true then
            { s with taskQueue := s.taskQueue.pop.push (rescheduled e w.nowAfter) }
          else { s with taskQueue := s.taskQueue.pop },
        events := deliveries s.observers.length (startedMessage e.task) ++
          [Event.executeCalled e.task] ++
          deliveries s.observers.length (completedMessage e.task),
        popped := some e,
        resubmitted := if e.isPeriodic = true then some (rescheduled e w.nowAfter) else none,
        escaped := none } := by
  have hn1 := notifyObservers_of_all_return { s with taskQueue := s.taskQueue.pop }
    (startedMessage e.task) (fun o ho => hobs o ho _)
  have hn2 := notifyObservers_of_all_return { s with taskQueue := s.taskQueue.pop }
    (completedMessage e.task) (fun o ho => hobs o ho _)
  rw [workerLoopBody_of_due s w e htop hdue]
  unfold tryBlock
  simp only [hn1, hn2, hjob]
  by_cases hp : e.isPeriodic = true <;> simp [hp, TaskScheduler.AddTask]

/-- With observers that return, an iteration on a due top whose job throws a
`std::exception` goes through the handler. -/
theorem workerLoopBody_of_failure (s : TaskScheduler) (w : World) (e : ScheduledTask)
    (what : String) (htop : s.taskQueue.top = some e) (hdue : e.runTime ≤ w.now)
    (hjob : w.Execute e.task = some (Thrown.stdException what))
    (hobs : ∀ o ∈ s.observers, ∀ m, o m = none) :
    s.WorkerLoopBody w =
      { sched := { s with taskQueue := s.taskQueue.pop },
        events := deliveries s.observers.length (startedMessage e.task) ++
          [Event.executeCalled e.task] ++
          ((Event.logWritten (exceptionLogLine what)) ::
            deliveries s.observers.length (failedMessage e.task)),
        popped := some e,
        resubmitted := none,
        escaped := none } := by
  have hn1 := notifyObservers_of_all_return { s with taskQueue := s.taskQueue.pop }
    (startedMessage e.task) (fun o ho => hobs o ho _)
  have hn3 := notifyObservers_of_all_return { s with taskQueue := s.taskQueue.pop }
    (failedMessage e.task) (fun o ho => hobs o ho _)
  rw [workerLoopBody_of_due s w e htop hdue]
  unfold tryBlock catchBlock
  simp only [hn1, hn3, hjob]

theorem workerLoop_of_empty (ws : List World) (s : TaskScheduler)
    (h : s.taskQueue = []) :
    (s.WorkerLoop ws).dispatched = [] ∧ executions (s.WorkerLoop ws).events = [] := by
  induction ws generalizing s with
  | nil => exact ⟨rfl, rfl⟩
  | cons w ws ih =>
    cases hstop : s.stopFlag with
    | true =>
      rw [workerLoop_cons_of_stop s w ws hstop]
      exact ⟨rfl, rfl⟩
    | false =>
      have htop : s.taskQueue.top = none := (TaskQueue.top_eq_none_iff _).mpr h
      have hb := workerLoopBody_of_empty s w htop
      have hesc : (s.WorkerLoopBody w).escaped = none := by rw [hb]
      rw [workerLoop_cons_of_continue s w ws hstop hesc, hb]
      have := ih s h
      simp only [Option.toList_none, List.nil_append, executions_append]
      exact ⟨this.1, by rw [this.2]; rfl⟩

/-! ### Registration and submission from the constructed scheduler -/

theorem addObservers_observers (obs : List Observer) (s : TaskScheduler) :
    (s.addObservers obs).observers = s.observers ++ obs ∧
    (s.addObservers obs).taskQueue = s.taskQueue ∧
    (s.addObservers obs).stopFlag = s.stopFlag := by
  induction obs generalizing s with
  | nil => simp [TaskScheduler.addObservers]
  | cons o rest ih =>
    have h := ih (s.AddObserver o)
    refine ⟨h.1.trans ?_, h.2.1.trans rfl, h.2.2.trans rfl⟩
    simp [TaskScheduler.AddObserver]

theorem addTasks_observers (tasks : List ScheduledTask) (s : TaskScheduler) :
    (s.addTasks tasks).observers = s.observers ∧
    (s.addTasks tasks).stopFlag = s.stopFlag := by
  induction tasks generalizing s with
  | nil => simp [TaskScheduler.addTasks]
  | cons t rest ih =>
    have h := ih (s.AddTask t)
    exact ⟨h.1.trans rfl, h.2.trans rfl⟩

theorem schedulerWith_observers (obs : List Observer) (tasks : List ScheduledTask) :
    (schedulerWith obs tasks).observers = obs := by
  unfold schedulerWith
  rw [(addTasks_observers tasks _).1, (addObservers_observers obs _).1]
  rfl

theorem quiet_returns (n : Nat) :
    ∀ o ∈ List.replicate n quietObserver, ∀ m : String, o m = none := by
  intro o ho m
  rw [List.eq_of_mem_replicate ho]
  rfl

theorem TaskQueue.pop_singleton (e : ScheduledTask) : TaskQueue.pop [e] = [] := by
  simp [TaskQueue.pop]

theorem notifyObservers_frame (s : TaskScheduler) (q : TaskQueue) (m : String) :
    TaskScheduler.NotifyObservers { s with taskQueue := q } m = s.NotifyObservers m := rfl

/-- The `try` block when the "started" notification returns and the job
throws. -/
theorem tryBlock_of_job_throw (s : TaskScheduler) (w : World) (e : ScheduledTask)
    (err : Thrown) (hn1 : (s.NotifyObservers (startedMessage e.task)).2 = none)
    (hjob : w.Execute e.task = some err) :
    tryBlock s w e =
      { sched := s,
        events := (s.NotifyObservers (startedMessage e.task)).1 ++
          [Event.executeCalled e.task],
        resubmitted := none, thrown := some err } := by
  unfold tryBlock
  simp only [hn1, hjob]

/-- The `try` block when the "started" notification throws. -/
theorem tryBlock_of_started_throw (s : TaskScheduler) (w : World) (e : ScheduledTask)
    (err : Thrown) (hn1 : (s.NotifyObservers (startedMessage e.task)).2 = some err) :
    tryBlock s w e =
      { sched := s, events := (s.NotifyObservers (startedMessage e.task)).1,
        resubmitted := none, thrown := some err } := by
  unfold tryBlock
  simp only [hn1]

/-- The `try` block when the "completed" notification throws. -/
theorem tryBlock_of_completed_throw (s : TaskScheduler) (w : World) (e : ScheduledTask)
    (err : Thrown) (hn1 : (s.NotifyObservers (startedMessage e.task)).2 = none)
    (hjob : w.Execute e.task = none)
    (hn2 : (s.NotifyObservers (completedMessage e.task)).2 = some err) :
    tryBlock s w e =
      { sched := s,
        events := (s.NotifyObservers (startedMessage e.task)).1 ++
          [Event.executeCalled e.task] ++ (s.NotifyObservers (completedMessage e.task)).1,
        resubmitted := none, thrown := some err } := by
  unfold tryBlock
  simp only [hn1, hjob, hn2]

/-- An iteration whose `try` block is left by an exception: the entry is
popped, nothing is resubmitted, and the handler decides what leaves the loop. -/
theorem workerLoopBody_of_thrown (s : TaskScheduler) (w : World) (e : ScheduledTask)
    (err : Thrown) (evs : List Event) (htop : s.taskQueue.top = some e)
    (hdue : e.runTime ≤ w.now)
    (htry : tryBlock { s with taskQueue := s.taskQueue.pop } w e =
      { sched := { s with taskQueue := s.taskQueue.pop }, events := evs,
        resubmitted := none, thrown := some err }) :
    s.WorkerLoopBody w =
      { sched := { s with taskQueue := s.taskQueue.pop },
        events := evs ++ (catchBlock { s with taskQueue := s.taskQueue.pop } e err).1,
        popped := some e, resubmitted := none,
        escaped := (catchBlock { s with taskQueue := s.taskQueue.pop } e err).2 } := by
  rw [workerLoopBody_of_due s w e htop hdue, htry]

theorem catchBlock_of_stdException (s : TaskScheduler) (e : ScheduledTask) (what : String) :
    catchBlock s e (Thrown.stdException what) =
      ((Event.logWritten (exceptionLogLine what)) ::
        (s.NotifyObservers (failedMessage e.task)).1,
        (s.NotifyObservers (failedMessage e.task)).2) := rfl

/-! ### What an iteration executes -/

theorem executions_notifyFrom (m : String) (i : Nat) (obs : List Observer) :
    executions (notifyFrom m i obs).1 = [] := by
  induction obs generalizing i with
  | nil => rfl
  | cons o rest ih =>
    unfold notifyFrom
    split
    · rfl
    · exact ih (i + 1)

theorem executions_notifyObservers (s : TaskScheduler) (m : String) :
    executions (s.NotifyObservers m).1 = [] :=
  executions_notifyFrom m 0 s.observers

/-- The `try` block calls `Execute` of the popped task only. -/
theorem executions_tryBlock (s : TaskScheduler) (w : World) (e : ScheduledTask) :
    ∀ t ∈ executions (tryBlock s w e).events, t = e.task := by
  intro t ht
  unfold tryBlock at ht
  simp only [] at ht
  split at ht
  · rw [executions_notifyObservers] at ht
    exact absurd ht (List.not_mem_nil t)
  · split at ht
    · rw [executions_append, executions_notifyObservers] at ht
      simpa [executions] using ht
    · split at ht
      · rw [executions_append, executions_append, executions_notifyObservers,
          executions_notifyObservers] at ht
        simpa [executions] using ht
      · split at ht
        · rw [executions_append, executions_append, executions_notifyObservers,
            executions_notifyObservers] at ht
          simpa [executions] using ht
        · rw [executions_append, executions_append, executions_notifyObservers,
            executions_notifyObservers] at ht
          simpa [executions] using ht

/-- The handler calls no job. -/
theorem executions_catchBlock (s : TaskScheduler) (e : ScheduledTask) (err : Thrown) :
    executions (catchBlock s e err).1 = [] := by
  cases err with
  | stdException what =>
    rw [catchBlock_of_stdException]
    show executions ([Event.logWritten (exceptionLogLine what)] ++
      (s.NotifyObservers (failedMessage e.task)).1) = []
    rw [executions_append, executions_notifyObservers]
    rfl
  | other => rfl

/-- A job that an iteration executes is the job of the entry it popped, which
was the top of the queue and due. -/
theorem executions_workerLoopBody (s : TaskScheduler) (w : World) :
    ∀ t ∈ executions (s.WorkerLoopBody w).events,
      ∃ e, s.taskQueue.top = some e ∧ (s.WorkerLoopBody w).popped = some e ∧
        e.task = t ∧ e.runTime ≤ w.now := by
  intro t ht
  cases htop : s.taskQueue.top with
  | none =>
    rw [workerLoopBody_of_empty s w htop] at ht
    simp [executions] at ht
  | some e =>
    by_cases hdue : e.runTime ≤ w.now
    · have hb := workerLoopBody_of_due s w e htop hdue
      have hpop : (s.WorkerLoopBody w).popped = some e := by
        rw [hb]; split <;> rfl
      refine ⟨e, rfl, hpop, ?_, hdue⟩
      rw [hb] at ht
      split at ht
      · exact (executions_tryBlock _ w e t ht).symm
      · rw [executions_append, executions_catchBlock, List.append_nil] at ht
        exact (executions_tryBlock _ w e t ht).symm
    · rw [workerLoopBody_of_not_due s w e htop hdue] at ht
      simp [executions] at ht

/-! ### A push below the top -/

/-- The `try` block when both notifications and the job return. -/
theorem tryBlock_of_return (s : TaskScheduler) (w : World) (e : ScheduledTask)
    (hn1 : (s.NotifyObservers (startedMessage e.task)).2 = none)
    (hjob : w.Execute e.task = none)
    (hn2 : (s.NotifyObservers (completedMessage e.task)).2 = none) :
    tryBlock s w e =
      { sched := if e.isPeriodic = true then s.AddTask (rescheduled e w.nowAfter) else s,
        events := (s.NotifyObservers (startedMessage e.task)).1 ++
          [Event.executeCalled e.task] ++ (s.NotifyObservers (completedMessage e.task)).1,
        resubmitted := if e.isPeriodic = true then some (rescheduled e w.nowAfter) else none,
        thrown := none } := by
  unfold tryBlock
  simp only [hn1, hjob, hn2]
  by_cases hp : e.isPeriodic = true <;> simp [hp]

/-- An iteration on a due top whose job and whose "started" and "completed"
notifications return. -/
theorem workerLoopBody_of_return (s : TaskScheduler) (w : World) (e : ScheduledTask)
    (htop : s.taskQueue.top = some e) (hdue : e.runTime ≤ w.now)
    (hn1 : (s.NotifyObservers (startedMessage e.task)).2 = none)
    (hjob : w.Execute e.task = none)
    (hn2 : (s.NotifyObservers (completedMessage e.task)).2 = none) :
    s.WorkerLoopBody w =
      { sched :=
          if e.isPeriodic = true then
            { s with taskQueue := s.taskQueue.pop.push (rescheduled e w.nowAfter) }
          else { s with taskQueue := s.taskQueue.pop },
        events := (s.NotifyObservers (startedMessage e.task)).1 ++
          [Event.executeCalled e.task] ++ (s.NotifyObservers (completedMessage e.task)).1,
        popped := some e,
        resubmitted := if e.isPeriodic = true then some (rescheduled e w.nowAfter) else none,
        escaped := none } := by
  rw [workerLoopBody_of_due s w e htop hdue,
    tryBlock_of_return { s with taskQueue := s.taskQueue.pop } w e hn1 hjob hn2]
  by_cases hp : e.isPeriodic = true <;>
    simp [hp, TaskScheduler.AddTask, notifyObservers_frame]

/-- An iteration on a due top whose "started" notification returns and whose
job throws a `std::exception`: the handler writes the log line and sends the
"failed" notification, whose exception, if any, leaves the loop. -/
theorem workerLoopBody_of_std_throw (s : TaskScheduler) (w : World) (e : ScheduledTask)
    (what : String) (htop : s.taskQueue.top = some e) (hdue : e.runTime ≤ w.now)
    (hn1 : (s.NotifyObservers (startedMessage e.task)).2 = none)
    (hjob : w.Execute e.task = some (Thrown.stdException what)) :
    s.WorkerLoopBody w =
      { sched := { s with taskQueue := s.taskQueue.pop },
        events := (s.NotifyObservers (startedMessage e.task)).1 ++
          [Event.executeCalled e.task] ++
          ((Event.logWritten (exceptionLogLine what)) ::
            (s.NotifyObservers (failedMessage e.task)).1),
        popped := some e, resubmitted := none,
        escaped := (s.NotifyObservers (failedMessage e.task)).2 } := by
  rw [workerLoopBody_of_thrown s w e (Thrown.stdException what) _ htop hdue
    (tryBlock_of_job_throw { s with taskQueue := s.taskQueue.pop } w e _ hn1 hjob),
    catchBlock_of_stdException]
  rfl

/-! ## The claims -/

/-- C1 (dispatch order).  In every state the scheduler reaches from its
construction by any sequence of `AddTask`, `AddObserver` and worker
iterations, an iteration that pops an entry pops one of the queue whose
`runTime` is smallest among all entries of the queue; and a run of the worker
loop during which nothing is resubmitted pops its entries in non-decreasing
`runTime` order, whatever the order of the `AddTask` calls was. -/
theorem dispatch_order (calls : List Call) :
    (∀ w e, ((History.init.run calls).sched.WorkerLoopBody w).popped = some e →
      e ∈ (History.init.run calls).sched.taskQueue ∧
      ∀ x ∈ (History.init.run calls).sched.taskQueue, e.runTime ≤ x.runTime) ∧
    (∀ ws, ((History.init.run calls).sched.WorkerLoop ws).resubmitted = [] →
      ((History.init.run calls).sched.WorkerLoop ws).dispatched.Pairwise
        (fun a b => a.runTime ≤ b.runTime)) := by
  have hheap : IsHeap (History.init.run calls).sched.taskQueue :=
    History.run_isHeap calls History.init isHeap_nil
  refine ⟨fun w e hpop => ?_, fun ws hres => (workerLoop_sorted_aux ws _ hheap hres).1⟩
  rcases (workerLoopBody_cases (History.init.run calls).sched w).2.2 with
    ⟨hp, _, _⟩ | ⟨e2, htop, _, hp, _⟩
  · rw [hp] at hpop
    exact absurd hpop (by simp)
  · rw [hp] at hpop
    obtain rfl : e2 = e := by simpa using hpop
    exact ⟨TaskQueue.top_mem htop, TaskQueue.top_le hheap htop⟩

/-- Entries submitted with due times 3 s, 1 s, 2 s are popped in the order
1 s, 2 s, 3 s. -/
theorem dispatch_order_witness :
    ((History.init.run threeSubmissions).sched.WorkerLoop threeIterations).resubmitted = [] ∧
    ((History.init.run threeSubmissions).sched.WorkerLoop threeIterations).dispatched.Pairwise
      (fun a b => a.runTime ≤ b.runTime) ∧
    ((History.init.run threeSubmissions).sched.WorkerLoop threeIterations).dispatched.map
      (fun t => t.task.GetName) = ["1", "2", "3"] :=
  ⟨by decide, (dispatch_order threeSubmissions).2 threeIterations (by decide), by decide⟩

/-- C2 (one-shot exactly once).  When the top of the queue is a due one-shot
entry whose job returns and no observer throws, the iteration calls `Execute`
of that job once and of no other job, pops the entry, resubmits nothing and
lets no exception out; the queue afterwards is the queue before minus that
entry; and when it was the only entry, no later iteration executes a job. -/
theorem one_shot_exactly_once (s : TaskScheduler) (w : World) (e : ScheduledTask)
    (htop : s.taskQueue.top = some e) (hdue : e.runTime ≤ w.now)
    (hone : e.isPeriodic = false) (hjob : w.Execute e.task = none)
    (hobs : ∀ o ∈ s.observers, ∀ m, o m = none) :
    executions (s.WorkerLoopBody w).events = [e.task] ∧
    (s.WorkerLoopBody w).popped = some e ∧
    (s.WorkerLoopBody w).resubmitted = none ∧
    (s.WorkerLoopBody w).escaped = none ∧
    (s.WorkerLoopBody w).sched.taskQueue = s.taskQueue.pop ∧
    s.taskQueue.Perm (e :: (s.WorkerLoopBody w).sched.taskQueue) ∧
    (s.taskQueue = [e] →
      ∀ ws, executions ((s.WorkerLoopBody w).sched.WorkerLoop ws).events = []) := by
  rw [workerLoopBody_of_success s w e htop hdue hjob hobs, hone]
  refine ⟨?_, rfl, rfl, rfl, rfl, TaskQueue.pop_perm htop, fun hq ws => ?_⟩
  · rw [executions_append, executions_append, executions_deliveries,
      executions_deliveries]
    rfl
  · refine (workerLoop_of_empty ws _ ?_).2
    show s.taskQueue.pop = []
    rw [hq]
    exact TaskQueue.pop_singleton e

/-- One observer, one immediate one-shot task "A": it is executed once and the
queue is empty afterwards. -/
theorem one_shot_exactly_once_witness :
    (schedulerWith [quietObserver] [oneShot "A" 0]).taskQueue.top = some (oneShot "A" 0) ∧
    executions ((schedulerWith [quietObserver] [oneShot "A" 0]).WorkerLoopBody
      (calmWorld 0 0)).events = [(oneShot "A" 0).task] ∧
    ((schedulerWith [quietObserver] [oneShot "A" 0]).WorkerLoopBody
      (calmWorld 0 0)).sched.taskQueue = [] :=
  ⟨by decide,
    (one_shot_exactly_once (schedulerWith [quietObserver] [oneShot "A" 0]) (calmWorld 0 0)
      (oneShot "A" 0) (by decide) (by decide) rfl rfl
      (by rw [schedulerWith_observers]; exact quiet_returns 1)).1,
    by decide⟩

/-- C3, as the claim states it, fails: the job of a due periodic task returns
(its run completes), but an observer throws on the "completed" message, and
the task is not resubmitted; the queue is empty afterwards. -/
theorem periodic_not_rescheduled_when_observer_throws :
    (calmWorld 0 70000000).Execute (periodic "B" 0 5).task = none ∧
    executions ((schedulerWith [touchyObserver "完成执行: B" "gone"]
      [periodic "B" 0 5]).WorkerLoopBody (calmWorld 0 70000000)).events =
      [(periodic "B" 0 5).task] ∧
    ((schedulerWith [touchyObserver "完成执行: B" "gone"]
      [periodic "B" 0 5]).WorkerLoopBody (calmWorld 0 70000000)).resubmitted = none ∧
    ((schedulerWith [touchyObserver "完成执行: B" "gone"]
      [periodic "B" 0 5]).WorkerLoopBody (calmWorld 0 70000000)).sched.taskQueue = [] := by
  decide

/-- C3 as amended (periodic rescheduling from completion time).  When the top
of the queue is a due periodic entry, its job returns, and the notifications
"开始执行: name" and "完成执行: name" return, the iteration resubmits the same
task, periodic with the same interval, with `runTime` equal to the clock read
after the run plus 10000000 ticks (one second) times the interval; the queue
afterwards is the popped queue plus that entry; and the new `runTime` differs
from the original `runTime` plus the interval by exactly the delay of the
completion over the original `runTime`. -/
theorem periodic_reschedule_from_completion (s : TaskScheduler) (w : World)
    (e : ScheduledTask) (htop : s.taskQueue.top = some e) (hdue : e.runTime ≤ w.now)
    (hper : e.isPeriodic = true)
    (hn1 : (s.NotifyObservers ("开始执行: " ++ e.task.GetName)).2 = none)
    (hjob : w.Execute e.task = none)
    (hn2 : (s.NotifyObservers ("完成执行: " ++ e.task.GetName)).2 = none) :
    (s.WorkerLoopBody w).resubmitted =
      some { task := e.task, runTime := w.nowAfter + e.intervalSeconds * 10000000,
             isPeriodic := true, intervalSeconds := e.intervalSeconds } ∧
    (s.WorkerLoopBody w).sched.taskQueue.Perm
      ({ task := e.task, runTime := w.nowAfter + e.intervalSeconds * 10000000,
         isPeriodic := true, intervalSeconds := e.intervalSeconds } :: s.taskQueue.pop) ∧
    (w.nowAfter + e.intervalSeconds * 10000000) -
      (e.runTime + e.intervalSeconds * 10000000) = w.nowAfter - e.runTime := by
  have hnext : rescheduled e w.nowAfter =
      { task := e.task, runTime := w.nowAfter + e.intervalSeconds * 10000000,
        isPeriodic := e.isPeriodic, intervalSeconds := e.intervalSeconds } := rfl
  rw [workerLoopBody_of_return s w e htop hdue hn1 hjob hn2, hnext, hper]
  refine ⟨rfl, TaskQueue.push_perm _ _, ?_⟩
  ring

/-- A task due at tick 0 with a 5 s interval whose run completes at tick
70000000 (7 s) is due next at tick 120000000 (12 s), not at 5 s. -/
theorem periodic_reschedule_from_completion_witness :
    (schedulerWith [quietObserver] [periodic "B" 0 5]).taskQueue.top =
      some (periodic "B" 0 5) ∧
    ((schedulerWith [quietObserver] [periodic "B" 0 5]).NotifyObservers "开始执行: B").2 =
      none ∧
    ((schedulerWith [quietObserver] [periodic "B" 0 5]).NotifyObservers "完成执行: B").2 =
      none ∧
    ((schedulerWith [quietObserver] [periodic "B" 0 5]).WorkerLoopBody
      (calmWorld 0 70000000)).resubmitted =
      some { task := { GetName := "B" }, runTime := 120000000, isPeriodic := true,
             intervalSeconds := 5 } ∧
    ((schedulerWith [quietObserver] [periodic "B" 0 5]).WorkerLoopBody
      (calmWorld 0 70000000)).sched.taskQueue =
      [{ task := { GetName := "B" }, runTime := 120000000, isPeriodic := true,
         intervalSeconds := 5 }] :=
  ⟨by decide, by decide, by decide,
    (periodic_reschedule_from_completion (schedulerWith [quietObserver] [periodic "B" 0 5])
      (calmWorld 0 70000000) (periodic "B" 0 5) (by decide) (by decide) rfl
      (by decide) rfl (by decide)).1,
    by decide⟩

/-- C4, as the claim states it, fails: a due periodic task whose job throws is
popped and not resubmitted; the queue is empty afterwards. -/
theorem periodic_failure_not_reinserted :
    ((schedulerWith [quietObserver] [periodic "B" 0 5]).WorkerLoopBody
      (failingWorld 0 0 "boom")).popped = some (periodic "B" 0 5) ∧
    ((schedulerWith [quietObserver] [periodic "B" 0 5]).WorkerLoopBody
      (failingWorld 0 0 "boom")).resubmitted = none ∧
    ((schedulerWith [quietObserver] [periodic "B" 0 5]).WorkerLoopBody
      (failingWorld 0 0 "boom")).sched.taskQueue = [] := by
  decide

/-- C4 as amended (periodic reinsertion after a run that returns).  For a due
periodic entry at the top of the queue whose "started" notification returns:
when the job and the "completed" notification return, the task with `runTime`
equal to the clock read after the run plus 10000000 ticks (one second) times
the interval, periodic with the same job and interval, is pushed back onto the
popped queue; when the job throws, nothing is resubmitted and the queue is the
popped queue. -/
theorem periodic_reinsertion_on_return (s : TaskScheduler) (w : World)
    (e : ScheduledTask) (htop : s.taskQueue.top = some e) (hdue : e.runTime ≤ w.now)
    (hper : e.isPeriodic = true)
    (hn1 : (s.NotifyObservers ("开始执行: " ++ e.task.GetName)).2 = none) :
    (w.Execute e.task = none →
      (s.NotifyObservers ("完成执行: " ++ e.task.GetName)).2 = none →
      (s.WorkerLoopBody w).resubmitted =
        some { task := e.task, runTime := w.nowAfter + e.intervalSeconds * 10000000,
               isPeriodic := true, intervalSeconds := e.intervalSeconds } ∧
      (s.WorkerLoopBody w).sched.taskQueue =
        s.taskQueue.pop.push
          { task := e.task, runTime := w.nowAfter + e.intervalSeconds * 10000000,
            isPeriodic := true, intervalSeconds := e.intervalSeconds }) ∧
    (∀ err, w.Execute e.task = some err →
      (s.WorkerLoopBody w).resubmitted = none ∧
      (s.WorkerLoopBody w).sched.taskQueue = s.taskQueue.pop) := by
  refine ⟨fun hjob hn2 => ?_, fun err hjob => ?_⟩
  · have hnext : rescheduled e w.nowAfter =
        { task := e.task, runTime := w.nowAfter + e.intervalSeconds * 10000000,
          isPeriodic := e.isPeriodic, intervalSeconds := e.intervalSeconds } := rfl
    rw [workerLoopBody_of_return s w e htop hdue hn1 hjob hn2, hnext, hper]
    exact ⟨rfl, rfl⟩
  · rw [workerLoopBody_of_thrown s w e err _ htop hdue
      (tryBlock_of_job_throw { s with taskQueue := s.taskQueue.pop } w e err hn1 hjob)]
    exact ⟨rfl, rfl⟩

/-- A periodic task with a 5 s interval whose run ends at tick 10000000 is
pushed back with `runTime` 60000000 when its job returns, and is gone when its
job throws. -/
theorem periodic_reinsertion_on_return_witness :
    ((schedulerWith [quietObserver] [periodic "B" 0 5]).WorkerLoopBody
      (calmWorld 0 10000000)).sched.taskQueue =
        (schedulerWith [quietObserver] [periodic "B" 0 5]).taskQueue.pop.push
          { task := { GetName := "B" }, runTime := 60000000, isPeriodic := true,
            intervalSeconds := 5 } ∧
    ((schedulerWith [quietObserver] [periodic "B" 0 5]).WorkerLoopBody
      (calmWorld 0 10000000)).sched.taskQueue =
        [{ task := { GetName := "B" }, runTime := 60000000, isPeriodic := true,
           intervalSeconds := 5 }] ∧
    ((schedulerWith [quietObserver] [periodic "B" 0 5]).WorkerLoopBody
      (failingWorld 0 10000000 "boom")).sched.taskQueue =
        (schedulerWith [quietObserver] [periodic "B" 0 5]).taskQueue.pop ∧
    ((schedulerWith [quietObserver] [periodic "B" 0 5]).WorkerLoopBody
      (failingWorld 0 10000000 "boom")).sched.taskQueue = [] :=
  ⟨((periodic_reinsertion_on_return (schedulerWith [quietObserver] [periodic "B" 0 5])
      (calmWorld 0 10000000) (periodic "B" 0 5) (by decide) (by decide) rfl
      (by decide)).1 rfl (by decide)).2,
   by decide,
   ((periodic_reinsertion_on_return (schedulerWith [quietObserver] [periodic "B" 0 5])
      (failingWorld 0 10000000 "boom") (periodic "B" 0 5) (by decide) (by decide) rfl
      (by decide)).2 (Thrown.stdException "boom") rfl).2,
   by decide⟩

/-- C5, as the claim states it, fails.  A job that throws an object not
derived from `std::exception` is not caught: the exception leaves the worker
loop, the observer gets the "started" message only, and the second due task is
never dispatched.  And when an observer throws on the "failed" message, the
observer registered after it does not get that message, the exception leaves
the loop, and the second due task is never dispatched. -/
theorem job_failure_not_contained :
    ((schedulerWith [quietObserver] [oneShot "A" 0, oneShot "C" 1]).WorkerLoop
      [brokenWorld 5 5, calmWorld 5 5]).escaped = some Thrown.other ∧
    receivedBy 0 ((schedulerWith [quietObserver] [oneShot "A" 0, oneShot "C" 1]).WorkerLoop
      [brokenWorld 5 5, calmWorld 5 5]).events = ["开始执行: A"] ∧
    ((schedulerWith [quietObserver] [oneShot "A" 0, oneShot "C" 1]).WorkerLoop
      [brokenWorld 5 5, calmWorld 5 5]).dispatched = [oneShot "A" 0] ∧
    ((schedulerWith [touchyObserver "执行失败: A" "gone", quietObserver]
      [oneShot "A" 0, oneShot "C" 1]).WorkerLoop
      [failingWorld 5 5 "boom", calmWorld 5 5]).escaped =
        some (Thrown.stdException "gone") ∧
    receivedBy 1 ((schedulerWith [touchyObserver "执行失败: A" "gone", quietObserver]
      [oneShot "A" 0, oneShot "C" 1]).WorkerLoop
      [failingWorld 5 5 "boom", calmWorld 5 5]).events = ["开始执行: A"] ∧
    ((schedulerWith [touchyObserver "执行失败: A" "gone", quietObserver]
      [oneShot "A" 0, oneShot "C" 1]).WorkerLoop
      [failingWorld 5 5 "boom", calmWorld 5 5]).dispatched = [oneShot "A" 0] := by
  decide

/-- C5 as amended (a job's `std::exception` is contained).  When the job of
the due top entry throws a `std::exception` and no observer throws on the
messages "开始执行: name" and "执行失败: name", every observer is called with
"开始执行: name", then the job is called, the line "任务执行异常: what" is
written to the log and every observer is called with "执行失败: name", with no
"完成执行: name" message; no exception leaves the loop; the scheduler
afterwards is the one before with the entry popped, all other entries still
queued; and the loop goes on with the following iterations from that state. -/
theorem job_failure_contained (s : TaskScheduler) (w : World) (e : ScheduledTask)
    (what : String) (htop : s.taskQueue.top = some e) (hdue : e.runTime ≤ w.now)
    (hjob : w.Execute e.task = some (Thrown.stdException what))
    (hobs1 : ∀ o ∈ s.observers, o ("开始执行: " ++ e.task.GetName) = none)
    (hobs3 : ∀ o ∈ s.observers, o ("执行失败: " ++ e.task.GetName) = none) :
    (s.WorkerLoopBody w).events =
      deliveries s.observers.length ("开始执行: " ++ e.task.GetName) ++
        [Event.executeCalled e.task, Event.logWritten ("任务执行异常: " ++ what)] ++
        deliveries s.observers.length ("执行失败: " ++ e.task.GetName) ∧
    (∀ i, i < s.observers.length →
      receivedBy i (s.WorkerLoopBody w).events =
        ["开始执行: " ++ e.task.GetName, "执行失败: " ++ e.task.GetName]) ∧
    (s.WorkerLoopBody w).escaped = none ∧
    (s.WorkerLoopBody w).sched = { s with taskQueue := s.taskQueue.pop } ∧
    s.taskQueue.Perm (e :: (s.WorkerLoopBody w).sched.taskQueue) ∧
    (s.stopFlag = false → ∀ ws,
      (s.WorkerLoop (w :: ws)).dispatched =
        e :: (TaskScheduler.WorkerLoop { s with taskQueue := s.taskQueue.pop } ws).dispatched ∧
      (s.WorkerLoop (w :: ws)).escaped =
        (TaskScheduler.WorkerLoop { s with taskQueue := s.taskQueue.pop } ws).escaped) := by
  have hn1 : s.NotifyObservers (startedMessage e.task) =
      (deliveries s.observers.length ("开始执行: " ++ e.task.GetName), none) :=
    notifyObservers_of_all_return s _ hobs1
  have hn3 : s.NotifyObservers (failedMessage e.task) =
      (deliveries s.observers.length ("执行失败: " ++ e.task.GetName), none) :=
    notifyObservers_of_all_return s _ hobs3
  have hb := workerLoopBody_of_std_throw s w e what htop hdue (by rw [hn1]) hjob
  rw [hn1, hn3] at hb
  have hev : (s.WorkerLoopBody w).events =
      deliveries s.observers.length ("开始执行: " ++ e.task.GetName) ++
        [Event.executeCalled e.task, Event.logWritten ("任务执行异常: " ++ what)] ++
        deliveries s.observers.length ("执行失败: " ++ e.task.GetName) := by
    rw [hb]
    simp [exceptionLogLine]
  refine ⟨hev, fun i hi => ?_, by rw [hb], by rw [hb], ?_, fun hstop ws => ?_⟩
  · rw [hev, receivedBy_append, receivedBy_append, receivedBy_deliveries,
      receivedBy_deliveries, if_pos hi, if_pos hi]
    rfl
  · rw [hb]
    exact TaskQueue.pop_perm htop
  · rw [workerLoop_cons_of_continue s w ws hstop (by rw [hb]), hb]
    exact ⟨rfl, rfl⟩

/-- Two due tasks and two different observers, the first task throwing a
`std::exception` "boom": both observers get "开始执行: A" and "执行失败: A",
the log gets "任务执行异常: boom", and the second task is dispatched by the
next iteration. -/
theorem job_failure_contained_witness :
    (schedulerWith [quietObserver, touchyObserver "zzz" "w"]
      [oneShot "A" 0, oneShot "C" 1]).taskQueue.top = some (oneShot "A" 0) ∧
    ((schedulerWith [quietObserver, touchyObserver "zzz" "w"]
      [oneShot "A" 0, oneShot "C" 1]).WorkerLoopBody (failingWorld 5 5 "boom")).events =
      [Event.observerCalled 0 "开始执行: A", Event.observerCalled 1 "开始执行: A",
        Event.executeCalled { GetName := "A" }, Event.logWritten "任务执行异常: boom",
        Event.observerCalled 0 "执行失败: A", Event.observerCalled 1 "执行失败: A"] ∧
    receivedBy 1 ((schedulerWith [quietObserver, touchyObserver "zzz" "w"]
      [oneShot "A" 0, oneShot "C" 1]).WorkerLoopBody (failingWorld 5 5 "boom")).events =
      ["开始执行: A", "执行失败: A"] ∧
    logLines ((schedulerWith [quietObserver, touchyObserver "zzz" "w"]
      [oneShot "A" 0, oneShot "C" 1]).WorkerLoopBody (failingWorld 5 5 "boom")).events =
      ["任务执行异常: boom"] ∧
    ((schedulerWith [quietObserver, touchyObserver "zzz" "w"]
      [oneShot "A" 0, oneShot "C" 1]).WorkerLoop
      [failingWorld 5 5 "boom", calmWorld 5 5]).dispatched =
      [oneShot "A" 0, oneShot "C" 1] :=
  ⟨by decide,
    (job_failure_contained (schedulerWith [quietObserver, touchyObserver "zzz" "w"]
      [oneShot "A" 0, oneShot "C" 1]) (failingWorld 5 5 "boom") (oneShot "A" 0) "boom"
      (by decide) (by decide) rfl (by decide) (by decide)).1,
    by decide, by decide, by decide⟩

/-- C6, as the claim states it, fails: when the first of two observers throws
on the "started" message, the second observer is never called with it; and
with an observer that throws on every message the exception leaves the worker
loop, so the second due task is not processed. -/
theorem observer_failure_not_isolated :
    receivedBy 1 ((schedulerWith [throwingObserver "gone", quietObserver]
      [oneShot "A" 0, oneShot "C" 1]).NotifyObservers
        (startedMessage (oneShot "A" 0).task)).1 = [] ∧
    ((schedulerWith [throwingObserver "gone", quietObserver]
      [oneShot "A" 0, oneShot "C" 1]).WorkerLoop
        [calmWorld 5 5, calmWorld 5 5]).escaped = some (Thrown.stdException "gone") ∧
    ((schedulerWith [throwingObserver "gone", quietObserver]
      [oneShot "A" 0, oneShot "C" 1]).WorkerLoop
        [calmWorld 5 5, calmWorld 5 5]).dispatched = [oneShot "A" 0] := by
  decide

/-- C6 as amended (an observer's exception ends the fan-out).
`NotifyObservers` calls the observers in registration order up to and
including the first one that throws, and no observer registered after it.
When the exception is a `std::exception` thrown during the "started" or the
"completed" notification and the "failed" notification returns, the worker
catches it: no exception leaves the loop, the entry is popped, and the loop
goes on with the following iterations. -/
theorem observer_failure_ends_fanout (s : TaskScheduler) :
    (∀ m pre bad post err, s.observers = pre ++ bad :: post →
      (∀ o ∈ pre, o m = none) → bad m = some err →
      s.NotifyObservers m = (deliveries (pre.length + 1) m, some err) ∧
      ∀ i, pre.length < i → receivedBy i (s.NotifyObservers m).1 = []) ∧
    (∀ w e what, s.taskQueue.top = some e → e.runTime ≤ w.now →
      ((s.NotifyObservers (startedMessage e.task)).2 = some (Thrown.stdException what) ∨
        ((s.NotifyObservers (startedMessage e.task)).2 = none ∧
          w.Execute e.task = none ∧
          (s.NotifyObservers (completedMessage e.task)).2 =
            some (Thrown.stdException what))) →
      (s.NotifyObservers (failedMessage e.task)).2 = none →
      (s.WorkerLoopBody w).escaped = none ∧
      (s.WorkerLoopBody w).sched = { s with taskQueue := s.taskQueue.pop } ∧
      (s.stopFlag = false → ∀ ws,
        (s.WorkerLoop (w :: ws)).dispatched =
          e :: (TaskScheduler.WorkerLoop { s with taskQueue := s.taskQueue.pop }
            ws).dispatched)) := by
  constructor
  · intro m pre bad post err hobs hpre hbad
    have hn : s.NotifyObservers m = (deliveries (pre.length + 1) m, some err) := by
      unfold TaskScheduler.NotifyObservers deliveries
      rw [hobs, notifyFrom_of_first_throw m pre post bad err hpre hbad 0,
        List.range_eq_range']
    refine ⟨hn, fun i hi => ?_⟩
    rw [hn, receivedBy_deliveries, if_neg (by omega)]
  · intro w e what htop hdue hthrow hfailed
    have hbody : ∃ evs, s.WorkerLoopBody w =
        { sched := { s with taskQueue := s.taskQueue.pop },
          events := evs ++
            (catchBlock { s with taskQueue := s.taskQueue.pop } e
              (Thrown.stdException what)).1,
          popped := some e, resubmitted := none,
          escaped := (catchBlock { s with taskQueue := s.taskQueue.pop } e
              (Thrown.stdException what)).2 } := by
      rcases hthrow with h1 | ⟨h1, hjob, h2⟩
      · exact ⟨_, workerLoopBody_of_thrown s w e _ _ htop hdue
          (tryBlock_of_started_throw _ w e _ h1)⟩
      · exact ⟨_, workerLoopBody_of_thrown s w e _ _ htop hdue
          (tryBlock_of_completed_throw _ w e _ h1 hjob h2)⟩
    obtain ⟨evs, hb⟩ := hbody
    have hesc : (s.WorkerLoopBody w).escaped = none := by
      rw [hb, catchBlock_of_stdException]
      exact hfailed
    refine ⟨hesc, by rw [hb], fun hstop ws => ?_⟩
    rw [workerLoop_cons_of_continue s w ws hstop hesc, hb]
    rfl

/-- An observer that throws on the "started" message of task "A" only: the
observer registered after it does not get that message, the worker sends the
"failed" message and goes on to the second task. -/
theorem observer_failure_ends_fanout_witness :
    receivedBy 1 ((schedulerWith
      [touchyObserver (startedMessage (oneShot "A" 0).task) "gone", quietObserver]
      [oneShot "A" 0, oneShot "C" 1]).NotifyObservers
        (startedMessage (oneShot "A" 0).task)).1 = [] ∧
    ((schedulerWith
      [touchyObserver (startedMessage (oneShot "A" 0).task) "gone", quietObserver]
      [oneShot "A" 0, oneShot "C" 1]).WorkerLoopBody (calmWorld 5 5)).escaped = none ∧
    ((schedulerWith
      [touchyObserver (startedMessage (oneShot "A" 0).task) "gone", quietObserver]
      [oneShot "A" 0, oneShot "C" 1]).WorkerLoop
        [calmWorld 5 5, calmWorld 5 5]).dispatched = [oneShot "A" 0, oneShot "C" 1] :=
  ⟨((observer_failure_ends_fanout (schedulerWith
      [touchyObserver (startedMessage (oneShot "A" 0).task) "gone", quietObserver]
      [oneShot "A" 0, oneShot "C" 1])).1 (startedMessage (oneShot "A" 0).task) []
      (touchyObserver (startedMessage (oneShot "A" 0).task) "gone") [quietObserver]
      (Thrown.stdException "gone") (schedulerWith_observers _ _)
      (fun o ho => absurd ho (List.not_mem_nil o)) (by decide)).2 1 (by decide),
    ((observer_failure_ends_fanout (schedulerWith
      [touchyObserver (startedMessage (oneShot "A" 0).task) "gone", quietObserver]
      [oneShot "A" 0, oneShot "C" 1])).2 (calmWorld 5 5) (oneShot "A" 0) "gone"
      (by decide) (by decide) (Or.inl (by decide)) (by decide)).1,
    by decide⟩

/-- C7 (observer fan-out).  After the registration of the observers `obs`, in
this order, and the submission of one due entry (one-shot or not) whose job
returns, with no observer throwing on the messages "开始执行: name" and
"完成执行: name": the vector of observers is `obs`, the i-th registered at
position i; the iteration calls the observers at positions 0 to `N - 1` in
this order with "开始执行: name", calls the job, and calls the observers at
positions 0 to `N - 1` in this order with "完成执行: name"; so each observer
receives exactly these two messages, in this order.  That the position of the
call is the position of registration shows on any other message too: a
notification reaches the observers registered before the first one that throws
on it, then that one, and no observer registered after it. -/
theorem observer_fan_out (obs : List Observer) (e : ScheduledTask) (w : World)
    (hobs1 : ∀ o ∈ obs, o ("开始执行: " ++ e.task.GetName) = none)
    (hobs2 : ∀ o ∈ obs, o ("完成执行: " ++ e.task.GetName) = none)
    (hdue : e.runTime ≤ w.now) (hjob : w.Execute e.task = none) :
    (schedulerWith obs [e]).observers = obs ∧
    ((schedulerWith obs [e]).WorkerLoopBody w).events =
      deliveries obs.length ("开始执行: " ++ e.task.GetName) ++
        [Event.executeCalled e.task] ++
        deliveries obs.length ("完成执行: " ++ e.task.GetName) ∧
    (∀ i, i < obs.length →
      receivedBy i ((schedulerWith obs [e]).WorkerLoopBody w).events =
        ["开始执行: " ++ e.task.GetName, "完成执行: " ++ e.task.GetName]) ∧
    (∀ m pre bad post err, obs = pre ++ bad :: post → (∀ o ∈ pre, o m = none) →
      bad m = some err →
      (schedulerWith obs [e]).NotifyObservers m =
        ((List.range (pre.length + 1)).map (fun i => Event.observerCalled i m),
          some err)) := by
  have hso : (schedulerWith obs [e]).observers = obs := schedulerWith_observers obs [e]
  have htop : (schedulerWith obs [e]).taskQueue.top = some e := by
    have hq : (schedulerWith obs [e]).taskQueue = [e] := by
      show ((TaskScheduler.init.addObservers obs).AddTask e).taskQueue = [e]
      simp only [TaskScheduler.AddTask, (addObservers_observers obs _).2.1]
      rfl
    rw [hq]
    rfl
  have hn1 : (schedulerWith obs [e]).NotifyObservers (startedMessage e.task) =
      (deliveries obs.length ("开始执行: " ++ e.task.GetName), none) := by
    have h := notifyObservers_of_all_return (schedulerWith obs [e])
      ("开始执行: " ++ e.task.GetName) (by rw [hso]; exact hobs1)
    rw [hso] at h
    exact h
  have hn2 : (schedulerWith obs [e]).NotifyObservers (completedMessage e.task) =
      (deliveries obs.length ("完成执行: " ++ e.task.GetName), none) := by
    have h := notifyObservers_of_all_return (schedulerWith obs [e])
      ("完成执行: " ++ e.task.GetName) (by rw [hso]; exact hobs2)
    rw [hso] at h
    exact h
  have hb := workerLoopBody_of_return (schedulerWith obs [e]) w e htop hdue
    (by rw [hn1]) hjob (by rw [hn2])
  rw [hn1, hn2] at hb
  have hev : ((schedulerWith obs [e]).WorkerLoopBody w).events =
      deliveries obs.length ("开始执行: " ++ e.task.GetName) ++
        [Event.executeCalled e.task] ++
        deliveries obs.length ("完成执行: " ++ e.task.GetName) := by
    rw [hb]
  refine ⟨hso, hev, fun i hi => ?_, fun m pre bad post err hsplit hpre hbad => ?_⟩
  · rw [hev, receivedBy_append, receivedBy_append, receivedBy_deliveries,
      receivedBy_deliveries, if_pos hi, if_pos hi]
    rfl
  · unfold TaskScheduler.NotifyObservers
    rw [hso, hsplit, notifyFrom_of_first_throw m pre post bad err hpre hbad 0,
      List.range_eq_range']

/-- Three different observers and one immediate task "C".  The observers sit
in the vector in the order of registration (the second one is the one that
throws on "zzz"); all three get "开始执行: C", then the job runs, then all
three get "完成执行: C", each time in the order 0, 1, 2; and on the message
"zzz" the first and the second are called, the third is not. -/
theorem observer_fan_out_witness :
    (schedulerWith [quietObserver, touchyObserver "zzz" "w", throwingObserverOn "yyy"]
      [oneShot "C" 0]).observers.map (fun o => (o "zzz", o "yyy")) =
      [(none, none), (some (Thrown.stdException "w"), none),
        (none, some (Thrown.stdException "yyy"))] ∧
    ((schedulerWith [quietObserver, touchyObserver "zzz" "w", throwingObserverOn "yyy"]
      [oneShot "C" 0]).WorkerLoopBody (calmWorld 0 0)).events =
      [Event.observerCalled 0 "开始执行: C", Event.observerCalled 1 "开始执行: C",
        Event.observerCalled 2 "开始执行: C", Event.executeCalled { GetName := "C" },
        Event.observerCalled 0 "完成执行: C", Event.observerCalled 1 "完成执行: C",
        Event.observerCalled 2 "完成执行: C"] ∧
    receivedBy 1 ((schedulerWith
      [quietObserver, touchyObserver "zzz" "w", throwingObserverOn "yyy"]
      [oneShot "C" 0]).WorkerLoopBody (calmWorld 0 0)).events =
      ["开始执行: C", "完成执行: C"] ∧
    (schedulerWith [quietObserver, touchyObserver "zzz" "w", throwingObserverOn "yyy"]
      [oneShot "C" 0]).NotifyObservers "zzz" =
      ([Event.observerCalled 0 "zzz", Event.observerCalled 1 "zzz"],
        some (Thrown.stdException "w")) ∧
    receivedBy 2 ((schedulerWith
      [quietObserver, touchyObserver "zzz" "w", throwingObserverOn "yyy"]
      [oneShot "C" 0]).WorkerLoopBody (calmWorld 0 0)).events =
      ["开始执行: C", "完成执行: C"] :=
  ⟨by decide,
    (observer_fan_out [quietObserver, touchyObserver "zzz" "w", throwingObserverOn "yyy"]
      (oneShot "C" 0) (calmWorld 0 0) (by decide) (by decide) (by decide) rfl).2.1,
    (observer_fan_out [quietObserver, touchyObserver "zzz" "w", throwingObserverOn "yyy"]
      (oneShot "C" 0) (calmWorld 0 0) (by decide) (by decide) (by decide) rfl).2.2.1 1
      (by decide),
    (observer_fan_out [quietObserver, touchyObserver "zzz" "w", throwingObserverOn "yyy"]
      (oneShot "C" 0) (calmWorld 0 0) (by decide) (by decide) (by decide) rfl).2.2.2 "zzz"
      [quietObserver] (touchyObserver "zzz" "w") [throwingObserverOn "yyy"]
      (Thrown.stdException "w") rfl (by decide) (by decide),
    by decide⟩

/-- C8 (no lost or duplicated entries).  After any interleaving of `AddTask`
calls with one-shot tasks, `AddObserver` calls and worker iterations from the
freshly constructed scheduler, the submitted entries are, as a multiset, the
entries in the queue together with the entries popped for dispatch. -/
theorem no_lost_or_duplicated (calls : List Call)
    (hone : ∀ c ∈ calls, c.oneShotOnly = true) :
    (History.init.run calls).submitted.Perm
      ((History.init.run calls).sched.taskQueue ++ (History.init.run calls).dispatched) := by
  have hb := History.run_balance calls History.init (List.Perm.refl _)
  have hr := History.run_oneShot calls History.init hone
    (fun x hx => by simp [History.init, TaskScheduler.init] at hx) rfl
  rw [hr, List.append_nil] at hb
  exact hb

/-- Four submissions interleaved with three iterations, two of which pop an
entry: the four submitted entries are the two queued and the two popped. -/
theorem no_lost_or_duplicated_witness :
    (∀ c ∈ interleaving, c.oneShotOnly = true) ∧
    (History.init.run interleaving).submitted.Perm
      ((History.init.run interleaving).sched.taskQueue ++
        (History.init.run interleaving).dispatched) ∧
    (History.init.run interleaving).dispatched.length = 2 :=
  ⟨by decide, no_lost_or_duplicated interleaving (by decide), by decide⟩

/-- C9 (submit is an unconditional insert).  For every scheduler state and
every task, the queue after `AddTask` holds the previous entries and the task,
as a multiset; the observers and the stop flag are unchanged. -/
theorem addTask_unconditional_insert (s : TaskScheduler) (task : ScheduledTask) :
    (s.AddTask task).taskQueue.Perm (task :: s.taskQueue) ∧
    (s.AddTask task).observers = s.observers ∧
    (s.AddTask task).stopFlag = s.stopFlag :=
  ⟨TaskQueue.push_perm s.taskQueue task, rfl, rfl⟩

/-- C10, as the claim states it, fails: for task "A" whose job throws with
reason "boom", the observer receives the "started" and the "failed" message,
and neither contains the reason. -/
theorem failure_message_lacks_reason :
    receivedBy 0 ((schedulerWith [quietObserver] [oneShot "A" 0]).WorkerLoopBody
      (failingWorld 0 0 "boom")).events = ["开始执行: A", "执行失败: A"] ∧
    ∀ m ∈ receivedBy 0 ((schedulerWith [quietObserver] [oneShot "A" 0]).WorkerLoopBody
      (failingWorld 0 0 "boom")).events, ¬ ("boom".data <:+: m.data) := by
  decide

/-- C10 as amended (failure message format).  When the job of the due top
entry throws a `std::exception` with reason `r` and no observer throws, the
failure message every observer receives is the failure prefix followed by the
job's name, so it contains the name; the reason goes to the log, in the one
line written, as the log prefix followed by `r`. -/
theorem failure_message_format (s : TaskScheduler) (w : World) (e : ScheduledTask)
    (r : String) (htop : s.taskQueue.top = some e) (hdue : e.runTime ≤ w.now)
    (hjob : w.Execute e.task = some (Thrown.stdException r))
    (hobs : ∀ o ∈ s.observers, ∀ m, o m = none) :
    (∀ i, i < s.observers.length →
      (receivedBy i (s.WorkerLoopBody w).events).getLast? =
        some ("执行失败: " ++ e.task.GetName)) ∧
    e.task.GetName.data <:+: ("执行失败: " ++ e.task.GetName).data ∧
    logLines (s.WorkerLoopBody w).events = ["任务执行异常: " ++ r] := by
  rw [workerLoopBody_of_failure s w e r htop hdue hjob hobs]
  refine ⟨fun i hi => ?_, ?_, ?_⟩
  · simp only [receivedBy_append, receivedBy_deliveries, if_pos hi]
    rw [show (Event.logWritten (exceptionLogLine r)) ::
        deliveries s.observers.length (failedMessage e.task) =
        [Event.logWritten (exceptionLogLine r)] ++
          deliveries s.observers.length (failedMessage e.task) from rfl,
      receivedBy_append, receivedBy_deliveries, if_pos hi]
    rfl
  · rw [String.data_append]
    exact (List.suffix_append _ _).isInfix
  · rw [show (Event.logWritten (exceptionLogLine r)) ::
        deliveries s.observers.length (failedMessage e.task) =
        [Event.logWritten (exceptionLogLine r)] ++
          deliveries s.observers.length (failedMessage e.task) from rfl,
      logLines_append, logLines_append, logLines_append, logLines_deliveries,
      logLines_deliveries]
    rfl

/-- Task "A" failing with reason "boom": the observer's last message is the
failure prefix with "A", and the log line carries "boom". -/
theorem failure_message_format_witness :
    (schedulerWith [quietObserver] [oneShot "A" 0]).taskQueue.top = some (oneShot "A" 0) ∧
    logLines ((schedulerWith [quietObserver] [oneShot "A" 0]).WorkerLoopBody
      (failingWorld 0 0 "boom")).events = ["任务执行异常: " ++ "boom"] :=
  ⟨by decide,
    (failure_message_format (schedulerWith [quietObserver] [oneShot "A" 0])
      (failingWorld 0 0 "boom") (oneShot "A" 0) "boom" (by decide) (by decide) rfl
      (by rw [schedulerWith_observers]; exact quiet_returns 1)).2.2⟩

/-- C11 (never early).  In every state the scheduler reaches from its
construction, and for every clock value: a job that the iteration executes is
the job of the entry it popped, and an entry is popped only when its `runTime`
is at most `now`; when an earliest entry of the queue has `runTime` greater
than `now`, the iteration leaves the scheduler as it is, pops and resubmits
nothing, and its only action is `wait_for` with `runTime - now` (no job is
called, no observer is notified); when the queue is empty its only action is
`wait`, and the scheduler is left as it is. -/
theorem never_early (calls : List Call) (w : World) :
    (∀ t ∈ executions ((History.init.run calls).sched.WorkerLoopBody w).events,
      ∃ e, ((History.init.run calls).sched.WorkerLoopBody w).popped = some e ∧
        e.task = t ∧ e.runTime ≤ w.now) ∧
    (∀ e, ((History.init.run calls).sched.WorkerLoopBody w).popped = some e →
      e.runTime ≤ w.now) ∧
    (∀ e ∈ (History.init.run calls).sched.taskQueue,
      (∀ x ∈ (History.init.run calls).sched.taskQueue, e.runTime ≤ x.runTime) →
      w.now < e.runTime →
      (History.init.run calls).sched.WorkerLoopBody w =
        { sched := (History.init.run calls).sched,
          events := [Event.waitForCalled (e.runTime - w.now)],
          popped := none, resubmitted := none, escaped := none }) ∧
    ((History.init.run calls).sched.taskQueue = [] →
      (History.init.run calls).sched.WorkerLoopBody w =
        { sched := (History.init.run calls).sched, events := [Event.waitCalled],
          popped := none, resubmitted := none, escaped := none }) := by
  have hheap : IsHeap (History.init.run calls).sched.taskQueue :=
    History.run_isHeap calls History.init isHeap_nil
  refine ⟨fun t ht => ?_, fun e hpop => ?_, fun e he hmin hlate => ?_, fun hq => ?_⟩
  · obtain ⟨e, _, hpop, htask, hdue⟩ :=
      executions_workerLoopBody (History.init.run calls).sched w t ht
    exact ⟨e, hpop, htask, hdue⟩
  · rcases (workerLoopBody_cases (History.init.run calls).sched w).2.2 with
      ⟨hp, _, _⟩ | ⟨e2, _, hdue, hp, _⟩
    · rw [hp] at hpop
      exact absurd hpop (by simp)
    · rw [hp] at hpop
      obtain rfl : e2 = e := by simpa using hpop
      exact hdue
  · cases htop : (History.init.run calls).sched.taskQueue.top with
    | none =>
      rw [(TaskQueue.top_eq_none_iff _).mp htop] at he
      exact absurd he (List.not_mem_nil e)
    | some t =>
      have h1 : t.runTime ≤ e.runTime := TaskQueue.top_le hheap htop e he
      have h2 : e.runTime ≤ t.runTime := hmin t (TaskQueue.top_mem htop)
      have heq : t.runTime = e.runTime := le_antisymm h1 h2
      rw [workerLoopBody_of_not_due _ w t htop (by rw [heq]; exact not_le.mpr hlate), heq]
  · exact workerLoopBody_of_empty _ w ((TaskQueue.top_eq_none_iff _).mpr hq)

/-- With entries due at 3 s, 1 s and 2 s and the clock at tick 0, the
iteration only waits for one second. -/
theorem never_early_witness :
    oneShot "1" (seconds 1) ∈ (History.init.run threeSubmissions).sched.taskQueue ∧
    (∀ x ∈ (History.init.run threeSubmissions).sched.taskQueue,
      (oneShot "1" (seconds 1)).runTime ≤ x.runTime) ∧
    (calmWorld 0 0).now < (oneShot "1" (seconds 1)).runTime ∧
    (History.init.run threeSubmissions).sched.WorkerLoopBody (calmWorld 0 0) =
      { sched := (History.init.run threeSubmissions).sched,
        events := [Event.waitForCalled ((oneShot "1" (seconds 1)).runTime - (calmWorld 0 0).now)],
        popped := none, resubmitted := none, escaped := none } :=
  ⟨by decide, by decide, by decide,
    (never_early threeSubmissions (calmWorld 0 0)).2.2.1 (oneShot "1" (seconds 1))
      (by decide) (by decide) (by decide)⟩

end TaskSched
